import Mathlib

/-!
# Formal model of the AGS savegame component protocol

A shallow embedding of `Engine/game/savegame_components.cpp`: the
content-mismatch assertion policy, the per-component serializers named by the
claims (characters, views, audio channels, script modules), and the stream
orchestrator (`WriteComponent`, `ReadComponent`, `ReadAll`).

Modelling conventions:
* Streams are byte sequences (`List Nat`, each element a byte value) with an
  explicit cursor, mirroring the engine's `Stream` position arithmetic.
* `HSaveError` truthiness follows the engine's `ErrorHandle`: converting to
  `bool` yields `true` on success (`HSaveError::None()`), `false` on error
  (see the pervasive `if (!err) return err;` idiom in the source).  Functions
  here return `Except SvgError _` or an explicit outcome record.
* The `SaveRestorationFlags` bitmask is represented as a record of its bits.
* Error message strings are abstracted into the `AssertMsg` discriminator,
  which keeps exactly the distinctions the messages make (count mismatch for
  a named category, per-object count mismatch, extra/missing named object).
-/

namespace AGS
namespace SavegameComponents

/-- The `SaveRestorationFlags` bitmask, one field per bit used by
`savegame_components.cpp`: the three permission bits
(`kSaveRestore_AllowMismatchExtra`, `kSaveRestore_AllowMismatchLess`,
`kSaveRestore_ClearData`) and the two accumulator bits
(`kSaveRestore_ExtraDataInSave`, `kSaveRestore_MissingDataInSave`). -/
structure SaveRestorationFlags where
  allowMismatchExtra : Bool := false
  allowMismatchLess  : Bool := false
  clearData          : Bool := false
  extraDataInSave    : Bool := false
  missingDataInSave  : Bool := false
  deriving DecidableEq, Repr

/-- Discriminator for the formatted message attached to a
`kSvgErr_GameContentAssertion` error: a plain count mismatch
(`AssertGameContent`), an object-scoped count mismatch
(`AssertGameObjectContent`/`AssertGameObjectContent2`, carrying the object
ids), or a named extra/missing component
(`HandleExtraGameComponent`/`HandleMissingGameComponent`, carrying the
object name as a byte string). -/
inductive AssertMsg where
  | countMismatch
  | objCountMismatch (objId : Nat)
  | objCountMismatch2 (obj1Id obj2Id : Nat)
  | extraGameComponent (objName : List Nat)
  | missingGameComponent (objName : List Nat)
  deriving DecidableEq, Repr

/-- Savegame error kinds (`SavegameErrorType`) used by the modelled code.
`componentUnserialization` carries its cause, as the C++ error chain does.
`modelFuelExhausted` is a modelling artifact marking non-termination of the
`ReadAll` loop (possible in the C++ only via pathological backward seeks);
no theorem relies on it. -/
inductive SvgError where
  | inconsistentFormat
  | componentOpeningTagFormat
  | componentClosingTagFormat
  | componentListOpeningTagFormat
  | componentListClosingTagMissing
  | unsupportedComponent
  | unsupportedComponentVersion
  | componentSizeMismatch
  | incompatibleEngine
  | gameContentAssertion (msg : AssertMsg)
  | gameContentAssertRequireClearReload
  | componentUnserialization (cause : SvgError)
  | modelFuelExhausted
  deriving DecidableEq, Repr

/-- Outcome of an assertion helper: the returned `bool`, the error written
through the `HSaveError &err` out-parameter (`none` when untouched), and the
possibly-updated `SaveRestorationFlags` reference. -/
structure AssertOutcome where
  ok : Bool
  err : Option SvgError
  flags : SaveRestorationFlags
  deriving DecidableEq, Repr

/-- `HandleGameContentMismatch` (savegame_components.cpp, lines 157-181):
decides whether a count mismatch between save (`newVal`) and game
(`origVal`) is tolerated, according to the restoration flags, and records
the mismatch direction into the flags accumulator. -/
def HandleGameContentMismatch (newVal origVal : Nat) (msg : AssertMsg)
    (flags : SaveRestorationFlags) : AssertOutcome :=
  if (newVal > origVal ∧ flags.allowMismatchExtra = false) ∨
     (newVal < origVal ∧ flags.allowMismatchLess = false) then
    ⟨false, some (.gameContentAssertion msg), flags⟩
  else if newVal > origVal then
    ⟨true, none, { flags with extraDataInSave := true }⟩
  else
    -- mismatch is allowed; record it, but require ClearData to proceed
    let flags := { flags with missingDataInSave := true }
    if flags.clearData = false then
      ⟨false, some .gameContentAssertRequireClearReload, flags⟩
    else
      ⟨true, none, flags⟩

/-- `AssertGameContent` (lines 200-210): equal counts succeed silently,
otherwise delegate to `HandleGameContentMismatch` with a count-mismatch
message.  (The `record_count` out-parameter is always set to `newVal` and is
returned by the callers that need it.) -/
def AssertGameContent (newVal origVal : Nat) (flags : SaveRestorationFlags) :
    AssertOutcome :=
  if newVal = origVal then ⟨true, none, flags⟩
  else HandleGameContentMismatch newVal origVal .countMismatch flags

/-- `AssertGameObjectContent` (lines 221-232): same policy, object-scoped
diagnostic message. -/
def AssertGameObjectContent (newVal origVal : Nat) (objId : Nat)
    (flags : SaveRestorationFlags) : AssertOutcome :=
  if newVal = origVal then ⟨true, none, flags⟩
  else HandleGameContentMismatch newVal origVal (.objCountMismatch objId) flags

/-- `AssertGameObjectContent2` (lines 235-246): same policy, two object ids
in the diagnostic message. -/
def AssertGameObjectContent2 (newVal origVal : Nat) (obj1Id obj2Id : Nat)
    (flags : SaveRestorationFlags) : AssertOutcome :=
  if newVal = origVal then ⟨true, none, flags⟩
  else HandleGameContentMismatch newVal origVal
    (.objCountMismatch2 obj1Id obj2Id) flags

/-- `HandleExtraGameComponent` (lines 184-189): a save object absent from
the game is always a fatal `kSvgErr_GameContentAssertion`; the function
ignores the restoration flags entirely. -/
def HandleExtraGameComponent (objName : List Nat) : SvgError :=
  .gameContentAssertion (.extraGameComponent objName)

/-- `HandleMissingGameComponent` (lines 192-197): a game object absent from
the save is always a fatal `kSvgErr_GameContentAssertion`. -/
def HandleMissingGameComponent (objName : List Nat) : SvgError :=
  .gameContentAssertion (.missingGameComponent objName)

--------------------------------------------------------------------------
-- Script modules component (ReadScriptModules)
--------------------------------------------------------------------------

/-- The slice of `PreservedParams` used by `ReadScriptModules`: the global
script data size, and the per-module names and preserved data-segment sizes
of the currently loaded game (index-aligned lists).  The engine's global
`numScriptModules` equals the number of preserved modules, since
`PreservedParams` is captured from the same loaded game. -/
structure PreservedParams where
  glScDataSize : Nat
  scriptModuleNames : List (List Nat)
  scMdDataSize : List Nat
  deriving DecidableEq, Repr

/-- One script-module record of the save stream (format version
`kScriptModulesSvgVersion_36200` and later, where the name is stored in the
stream): the module name and its data-segment length.  The data bytes
themselves are opaque to the control flow modelled here. -/
structure ModuleRecord where
  name : List Nat
  dataLen : Nat
  deriving DecidableEq, Repr

/-- The inner name-lookup loop of `ReadScriptModules` (lines 1107-1114):
a linear scan of `pp.ScriptModuleNames` returning the first index whose
name equals the saved module name (`String::Compare == 0`). -/
def FindModuleIndexFrom :
    List (List Nat) → Nat → List Nat → Option Nat
  | [], _, _ => none
  | nm :: rest, i, target =>
    if nm = target then some i else FindModuleIndexFrom rest (i + 1) target

/-- The name lookup starting at index 0. -/
def FindModuleIndex (names : List (List Nat)) (target : List Nat) :
    Option Nat :=
  FindModuleIndexFrom names 0 target

/-- The per-record loop of `ReadScriptModules` (lines 1099-1135).  `i` is the
outer loop index (the record's position in the save).  For each record the
code searches `pp.ScriptModuleNames` for the saved name; if found it asserts
the record's data length — against `pp.ScMdDataSize[i]`, i.e. the size of
the module at the save position `i` (the inner lookup loop shadows `i`, so
the assertion at line 1119 reads the outer index) — and marks the matched
game module; if not found it fails via `HandleExtraGameComponent`.
(`pp.scMdDataSize.getD i 0` stands for the C++ `pp.ScMdDataSize[i]`, whose
behaviour is undefined when `i` is out of range; no theorem depends on an
out-of-range read.) -/
def ReadScriptModulesLoop (pp : PreservedParams) :
    Nat → List ModuleRecord → SaveRestorationFlags → List Bool →
    Except SvgError (SaveRestorationFlags × List Bool)
  | _, [], flags, matched => .ok (flags, matched)
  | i, rec :: rest, flags, matched =>
    match FindModuleIndex pp.scriptModuleNames rec.name with
    | some gameModuleIndex =>
      match AssertGameObjectContent rec.dataLen (pp.scMdDataSize.getD i 0) i
          flags with
      | ⟨true, _, flags1⟩ =>
        ReadScriptModulesLoop pp (i + 1) rest flags1
          (matched.set gameModuleIndex true)
      | ⟨false, e, _⟩ =>
        .error (e.getD (.gameContentAssertion (.objCountMismatch i)))
    | none => .error (HandleExtraGameComponent rec.name)

/-- The final check of `ReadScriptModules` (lines 1138-1143): the first game
module that was not matched by any save record produces a
`HandleMissingGameComponent` error. -/
def FirstMissingModule :
    List (List Nat) → List Bool → Option SvgError
  | [], _ => none
  | name :: names, matched =>
    match matched with
    | [] => some (HandleMissingGameComponent name)
    | m :: ms =>
      if m then FirstMissingModule names ms
      else some (HandleMissingGameComponent name)

/-- `ReadScriptModules` (lines 1083-1146), for format version
`kScriptModulesSvgVersion_36200` and later (module names are read from the
stream): asserts the global script data size, then the module count, then
runs the per-record loop, then checks that every game module was matched.
`glDataLen` is the global-script data length read from the stream; `recs`
are the module records read from the stream.  On success the accumulated
restoration flags are returned. -/
def ReadScriptModules (flags : SaveRestorationFlags) (pp : PreservedParams)
    (glDataLen : Nat) (recs : List ModuleRecord) :
    Except SvgError SaveRestorationFlags :=
  match AssertGameContent glDataLen pp.glScDataSize flags with
  | ⟨false, e, _⟩ => .error (e.getD (.gameContentAssertion .countMismatch))
  | ⟨true, _, flags1⟩ =>
    match AssertGameContent recs.length pp.scriptModuleNames.length flags1 with
    | ⟨false, e, _⟩ => .error (e.getD (.gameContentAssertion .countMismatch))
    | ⟨true, _, flags2⟩ =>
      match ReadScriptModulesLoop pp 0 recs flags2
          (List.replicate pp.scriptModuleNames.length false) with
      | .error e => .error e
      | .ok (flags3, matched) =>
        match FirstMissingModule pp.scriptModuleNames matched with
        | some e => .error e
        | none => .ok flags3

--------------------------------------------------------------------------
-- Characters component (ReadCharacters)
--------------------------------------------------------------------------

/-- Outcome of `ReadCharacters`: the result, the accumulated flags, and the
list of character slots `i` for which the loop invoked
`game.chars[i].ReadFromSavegame(...)` (i.e. the indices of the engine's
character arrays that are written from the save). -/
structure ReadCharactersOutcome where
  err : Option SvgError
  flags : SaveRestorationFlags
  writtenSlots : List Nat
  deriving DecidableEq, Repr

/-- `ReadCharacters` (lines 628-651), for component version
`kCharSvgVersion_36109` and later (no legacy move-list records, so the loop
body cannot fail): reads `characters_read`, asserts it against
`game.numcharacters`, then for every `i < characters_read` reads one saved
character record into slot `i` of the engine's character arrays
(`game.chars[i]`, `charextra[i]`, `play.charProps[i]`).  The loop bound is
`characters_read`, not `game.numcharacters`. -/
def ReadCharacters (numCharacters : Nat) (charactersRead : Nat)
    (flags : SaveRestorationFlags) : ReadCharactersOutcome :=
  match AssertGameContent charactersRead numCharacters flags with
  | ⟨false, e, flags1⟩ =>
    ⟨some (e.getD (.gameContentAssertion .countMismatch)), flags1, []⟩
  | ⟨true, _, flags1⟩ => ⟨none, flags1, List.range charactersRead⟩

--------------------------------------------------------------------------
-- Byte streams
--------------------------------------------------------------------------

/-- A read stream: the underlying bytes and the cursor position, mirroring
the engine's `Stream` (`GetPosition`, `Seek`, `EOS`). -/
structure RStream where
  data : List Nat
  pos : Nat
  deriving DecidableEq, Repr

/-- `Stream::EOS()`: the cursor is at or past the end. -/
def RStream.eos (s : RStream) : Bool := s.data.length ≤ s.pos

/-- `Stream::ReadByte()`: returns the byte at the cursor and advances, or
fails (C++ returns -1) at end-of-stream without advancing. -/
def RStream.readByte (s : RStream) : Option Nat × RStream :=
  match s.data[s.pos]? with
  | some b => (some b, ⟨s.data, s.pos + 1⟩)
  | none => (none, s)

/-- Little-endian value of a byte list (bytes taken mod 256). -/
def leValue : List Nat → Nat
  | [] => 0
  | b :: bs => b % 256 + 256 * leValue bs

/-- Little-endian byte list of width `w` for a value. -/
def leBytes : Nat → Nat → List Nat
  | 0, _ => []
  | w + 1, v => v % 256 :: leBytes w (v / 256)

/-- Raw multi-byte read: assembles `count` bytes at the cursor little-endian
and advances by at most `count` (clamped at end-of-stream; bytes past the
end read as zero — the C++ leaves them unspecified, and no theorem depends
on reads past the end). -/
def RStream.readRaw (s : RStream) (count : Nat) : Nat × RStream :=
  (leValue ((s.data.drop s.pos).take count),
   ⟨s.data, min (s.pos + count) s.data.length⟩)

/-- Two's-complement reinterpretation of a `w`-bit unsigned value. -/
def toSigned (w : Nat) (v : Nat) : Int :=
  if v < 2 ^ (w - 1) then (v : Int) else (v : Int) - 2 ^ w

/-- `Stream::ReadInt32()`: 4 bytes little-endian, as a signed value. -/
def RStream.readInt32 (s : RStream) : Int × RStream :=
  let r := s.readRaw 4
  (toSigned 32 r.1, r.2)

/-- `ReadInt32` assigned to an unsigned variable (the ubiquitous
`const uint32_t n = in->ReadInt32();` idiom): the same 32-bit pattern as a
non-negative value. -/
def RStream.readUInt32 (s : RStream) : Nat × RStream := s.readRaw 4

/-- `Stream::ReadInt64()`: 8 bytes little-endian, as a signed value. -/
def RStream.readInt64 (s : RStream) : Int × RStream :=
  let r := s.readRaw 8
  (toSigned 64 r.1, r.2)

/-- `WriteInt32` as a byte list: the 32-bit two's-complement pattern of the
value, little-endian. -/
def int32Bytes (v : Int) : List Nat := leBytes 4 (v % 2 ^ 32).toNat

/-- `WriteInt64` as a byte list. -/
def int64Bytes (v : Int) : List Nat := leBytes 8 (v % 2 ^ 64).toNat

--------------------------------------------------------------------------
-- Views component (WriteViews / ReadViews)
--------------------------------------------------------------------------

/-- A view frame, restricted to the two fields the Views component
serializes (`frames[frame].sound`, `frames[frame].pic`). -/
structure ViewFrame where
  sound : Int
  pic : Int
  deriving DecidableEq, Repr

/-- A view loop: its frames (`numFrames` = length). -/
structure ViewLoopRow where
  frames : List ViewFrame
  deriving DecidableEq, Repr

/-- A view: its loops (`numLoops` = length). -/
structure ViewStruct where
  loops : List ViewLoopRow
  deriving DecidableEq, Repr

/-- Frame payload of `WriteViews` (lines 864-868): sound then pic. -/
def WriteFrameBytes (f : ViewFrame) : List Nat :=
  int32Bytes f.sound ++ int32Bytes f.pic

/-- Loop payload of `WriteViews` (lines 861-869): frame count, frames. -/
def WriteLoopBytes (lp : ViewLoopRow) : List Nat :=
  int32Bytes lp.frames.length ++ (lp.frames.map WriteFrameBytes).flatten

/-- View payload of `WriteViews` (lines 858-870): loop count, loops. -/
def WriteViewBytes (v : ViewStruct) : List Nat :=
  int32Bytes v.loops.length ++ (v.loops.map WriteLoopBytes).flatten

/-- `WriteViews` (lines 855-872): view count, then each view. -/
def WriteViews (views : List ViewStruct) : List Nat :=
  int32Bytes views.length ++ (views.map WriteViewBytes).flatten

/-- The innermost loop of `ReadViews` (lines 898-902): reads sound and pic
into each successive frame slot of the processed prefix. -/
def ReadFramesList : List ViewFrame → RStream → List ViewFrame × RStream
  | [], s => ([], s)
  | _ :: rest, s =>
    let (soundv, s1) := s.readInt32
    let (picv, s2) := s1.readInt32
    let r := ReadFramesList rest s2
    (⟨soundv, picv⟩ :: r.1, r.2)

/-- The per-loop body of `ReadViews` (lines 890-903): for each processed
loop, read the saved frame count, assert it against the loop's `numFrames`,
then read that many frames into the loop's frame slots (slots past the
saved count keep their previous contents). -/
def ReadViewLoops (viewId : Nat) :
    Nat → List ViewLoopRow → SaveRestorationFlags → RStream →
    Except SvgError (List ViewLoopRow × SaveRestorationFlags × RStream)
  | _, [], flags, s => .ok ([], flags, s)
  | loopId, lp :: rest, flags, s =>
    let (framesRead, s1) := s.readUInt32
    match AssertGameObjectContent2 framesRead lp.frames.length viewId loopId
        flags with
    | ⟨false, e, _⟩ =>
      .error (e.getD (.gameContentAssertion (.objCountMismatch2 viewId loopId)))
    | ⟨true, _, flags1⟩ =>
      let fr := ReadFramesList (lp.frames.take framesRead) s1
      match ReadViewLoops viewId (loopId + 1) rest flags1 fr.2 with
      | .error e => .error e
      | .ok (newLoops, flags2, s2) =>
        .ok (⟨fr.1 ++ lp.frames.drop framesRead⟩ :: newLoops, flags2, s2)

/-- The per-view body of `ReadViews` (lines 883-904): for each processed
view, read the saved loop count, assert it against the view's `numLoops`,
then process that many loops. -/
def ReadViewsList :
    Nat → List ViewStruct → SaveRestorationFlags → RStream →
    Except SvgError (List ViewStruct × SaveRestorationFlags × RStream)
  | _, [], flags, s => .ok ([], flags, s)
  | viewId, v :: rest, flags, s =>
    let (loopsRead, s1) := s.readUInt32
    match AssertGameObjectContent loopsRead v.loops.length viewId flags with
    | ⟨false, e, _⟩ =>
      .error (e.getD (.gameContentAssertion (.objCountMismatch viewId)))
    | ⟨true, _, flags1⟩ =>
      match ReadViewLoops viewId 0 (v.loops.take loopsRead) flags1 s1 with
      | .error e => .error e
      | .ok (newLoops, flags2, s2) =>
        match ReadViewsList (viewId + 1) rest flags2 s2 with
        | .error e => .error e
        | .ok (newViews, flags3, s3) =>
          .ok (⟨newLoops ++ v.loops.drop loopsRead⟩ :: newViews, flags3, s3)

/-- `ReadViews` (lines 874-906): reads the saved view count, asserts it
against `game.numviews`, then processes that many views of the game's view
table, writing the saved sound/pic values into the existing frame slots.
(When the saved count exceeds the game's view count — reachable only under
`AllowMismatchExtra` — the C++ indexes `views[]` out of range, which is
undefined; the model leaves the extra records unprocessed, and no theorem
depends on that region.) -/
def ReadViews (gameViews : List ViewStruct) (flags : SaveRestorationFlags)
    (s : RStream) :
    Except SvgError (List ViewStruct × SaveRestorationFlags × RStream) :=
  let (viewsRead, s1) := s.readUInt32
  match AssertGameContent viewsRead gameViews.length flags with
  | ⟨false, e, _⟩ => .error (e.getD (.gameContentAssertion .countMismatch))
  | ⟨true, _, flags1⟩ =>
    match ReadViewsList 0 (gameViews.take viewsRead) flags1 s1 with
    | .error e => .error e
    | .ok (newViews, flags2, s2) =>
      .ok (newViews ++ gameViews.drop viewsRead, flags2, s2)

--------------------------------------------------------------------------
-- Audio component: channel records (ReadAudio, lines 529-554)
--------------------------------------------------------------------------

/-- `RestoredData::ChannelInfo`, the staged per-channel playback record. -/
structure ChannelInfo where
  clipID : Int := 0
  pos : Int := 0
  priority : Int := 0
  repeatFlag : Int := 0
  vol : Int := 0
  volAsPercent : Int := 0
  pan : Int := 0
  speed : Int := 0
  xSource : Int := 0
  ySource : Int := 0
  maxDist : Int := 0
  deriving DecidableEq, Repr

/-- One iteration of the channel loop of `ReadAudio` (lines 529-554):
`Pos` is first set to 0, the clip id is read, and only for a non-negative
clip id is the full record read — with a negative saved position clamped
to 0 (lines 537-538).  `cmpVer ≥ 1` is `kAudioSvgVersion_35026`, which
added the source-position fields. -/
def ReadAudioChannel (cmpVer : Int) (s : RStream) : ChannelInfo × RStream :=
  let (clipID, s1) := s.readInt32
  if 0 ≤ clipID then
    let (posRaw, s2) := s1.readInt32
    let posv := if posRaw < 0 then 0 else posRaw
    let (priorityv, s3) := s2.readInt32
    let (repv, s4) := s3.readInt32
    let (volv, s5) := s4.readInt32
    let (_unused, s6) := s5.readInt32
    let (volpct, s7) := s6.readInt32
    let (panv, s8) := s7.readInt32
    let (speedv, s9) := s8.readInt32
    if 1 ≤ cmpVer then
      let (xv, s10) := s9.readInt32
      let (yv, s11) := s10.readInt32
      let (mdv, s12) := s11.readInt32
      (⟨clipID, posv, priorityv, repv, volv, volpct, panv, speedv,
        xv, yv, mdv⟩, s12)
    else
      (⟨clipID, posv, priorityv, repv, volv, volpct, panv, speedv,
        0, 0, 0⟩, s9)
  else
    ({ clipID := clipID, pos := 0 }, s1)

/-- The full channel loop of `ReadAudio`: one staged record per system
audio channel (`total_channels` iterations). -/
def ReadAudioChannels (cmpVer : Int) :
    Nat → RStream → List ChannelInfo × RStream
  | 0, s => ([], s)
  | n + 1, s =>
    let r1 := ReadAudioChannel cmpVer s
    let r2 := ReadAudioChannels cmpVer n r1.2
    (r1.1 :: r2.1, r2.2)

--------------------------------------------------------------------------
-- Claim C1: the content-count assertion policy
--------------------------------------------------------------------------

/-- C1: for every saved count `n`, game count `m` and restoration-flags
mask, `AssertGameContent` (via `HandleGameContentMismatch`) behaves as:
equal counts succeed with no flags recorded; `n > m` succeeds recording
`ExtraDataInSave` exactly when `AllowMismatchExtra` is set, otherwise fails
with `GameContentAssertion`; `n < m` without `AllowMismatchLess` fails with
`GameContentAssertion`; `n < m` with `AllowMismatchLess` but without
`ClearData` fails with `GameContentAssert_RequireClearReload`; `n < m` with
both succeeds recording `MissingDataInSave`. -/
theorem c1_content_count_assertion_policy (n m : Nat)
    (f : SaveRestorationFlags) :
    (n = m → AssertGameContent n m f = ⟨true, none, f⟩) ∧
    (n > m → f.allowMismatchExtra = true →
      AssertGameContent n m f =
        ⟨true, none, { f with extraDataInSave := true }⟩) ∧
    (n > m → f.allowMismatchExtra = false →
      AssertGameContent n m f =
        ⟨false, some (.gameContentAssertion .countMismatch), f⟩) ∧
    (n < m → f.allowMismatchLess = false →
      AssertGameContent n m f =
        ⟨false, some (.gameContentAssertion .countMismatch), f⟩) ∧
    (n < m → f.allowMismatchLess = true → f.clearData = false →
      AssertGameContent n m f =
        ⟨false, some .gameContentAssertRequireClearReload,
         { f with missingDataInSave := true }⟩) ∧
    (n < m → f.allowMismatchLess = true → f.clearData = true →
      AssertGameContent n m f =
        ⟨true, none, { f with missingDataInSave := true }⟩) := by
  refine ⟨?_, ?_, ?_, ?_, ?_, ?_⟩
  · intro h1
    simp [AssertGameContent, h1]
  · intro h1 h2
    have hne : ¬ n = m := by omega
    have hnlt : ¬ n < m := by omega
    simp [AssertGameContent, HandleGameContentMismatch, hne, hnlt, h1, h2]
  · intro h1 h2
    have hne : ¬ n = m := by omega
    have hnlt : ¬ n < m := by omega
    simp [AssertGameContent, HandleGameContentMismatch, hne, hnlt, h1, h2]
  · intro h1 h2
    have hne : ¬ n = m := by omega
    have hngt : ¬ n > m := by omega
    simp [AssertGameContent, HandleGameContentMismatch, hne, hngt, h1, h2]
  · intro h1 h2 h3
    have hne : ¬ n = m := by omega
    have hngt : ¬ n > m := by omega
    simp [AssertGameContent, HandleGameContentMismatch, hne, hngt, h1, h2, h3]
  · intro h1 h2 h3
    have hne : ¬ n = m := by omega
    have hngt : ¬ n > m := by omega
    simp [AssertGameContent, HandleGameContentMismatch, hne, hngt, h1, h2, h3]

/-- Witness for C1: a concrete shrinkage mismatch with `AllowMismatchLess`
set and `ClearData` clear fails with the require-clear-reload error, with
the missing-data flag accumulated. -/
theorem c1_content_count_assertion_policy_witness :
    AssertGameContent 3 5 ⟨false, true, false, false, false⟩ =
      ⟨false, some .gameContentAssertRequireClearReload,
       ⟨false, true, false, false, true⟩⟩ :=
  (c1_content_count_assertion_policy 3 5
    ⟨false, true, false, false, false⟩).2.2.2.2.1
    (by decide) (by decide) (by decide)

--------------------------------------------------------------------------
-- Claim C3: script-module size assertion uses the save position
--------------------------------------------------------------------------

/-- C3 (evaluation of the defect): a game with modules "A" (data size 1)
and "B" (data size 2), and a save holding the same modules reordered with
their correct per-name sizes.  Every saved module's length equals the
preserved size of its same-named game module (first two conjuncts), yet
`ReadScriptModules` fails: the assertion at line 1119 compares the first
record ("B", length 2) against `pp.ScMdDataSize[0]` — the size of the
module at save position 0 — because the name-lookup loop shadows `i`. -/
theorem c3_positional_size_assertion_eval :
    (FindModuleIndex [[65], [66]] [66] = some 1 ∧
      ([1, 2] : List Nat).getD 1 0 = 2) ∧
    (FindModuleIndex [[65], [66]] [65] = some 0 ∧
      ([1, 2] : List Nat).getD 0 0 = 1) ∧
    ReadScriptModules ⟨false, false, false, false, false⟩
      ⟨7, [[65], [66]], [1, 2]⟩ 7 [⟨[66], 2⟩, ⟨[65], 1⟩] =
      .error (.gameContentAssertion (.objCountMismatch 0)) :=
  ⟨⟨rfl, rfl⟩, ⟨rfl, rfl⟩, rfl⟩

--------------------------------------------------------------------------
-- Claim C8: named module mismatches are always fatal
--------------------------------------------------------------------------

/-- The name scan fails exactly when the name is absent. -/
theorem findModuleIndexFrom_eq_none (names : List (List Nat)) (i : Nat)
    (target : List Nat) :
    FindModuleIndexFrom names i target = none ↔ target ∉ names := by
  induction names generalizing i with
  | nil => simp [FindModuleIndexFrom]
  | cons nm rest ih =>
    by_cases h : nm = target
    · subst h
      simp [FindModuleIndexFrom]
    · rw [List.mem_cons, FindModuleIndexFrom, if_neg h, ih (i + 1)]
      constructor
      · intro hn hc
        rcases hc with hc | hc
        · exact h hc.symm
        · exact hn hc
      · intro hn hc
        exact hn (Or.inr hc)

/-- A successful name scan returns an index holding the target name. -/
theorem findModuleIndexFrom_some (names : List (List Nat))
    (target : List Nat) (i j : Nat)
    (h : FindModuleIndexFrom names i target = some j) :
    i ≤ j ∧ names[j - i]? = some target := by
  induction names generalizing i with
  | nil => simp [FindModuleIndexFrom] at h
  | cons nm rest ih =>
    unfold FindModuleIndexFrom at h
    split at h
    · rename_i heq
      obtain rfl : i = j := by simpa using h
      simpa using heq
    · obtain ⟨hle, hget⟩ := ih (i + 1) h
      refine ⟨by omega, ?_⟩
      have hidx : j - i = (j - (i + 1)) + 1 := by omega
      rw [hidx]
      simpa using hget

/-- If the per-record loop finishes, every saved module name was found in
the game's module list. -/
theorem readScriptModulesLoop_ok_names (pp : PreservedParams)
    (recs : List ModuleRecord) (i : Nat) (flags : SaveRestorationFlags)
    (matched : List Bool) (out : SaveRestorationFlags × List Bool)
    (h : ReadScriptModulesLoop pp i recs flags matched = .ok out) :
    ∀ r ∈ recs, r.name ∈ pp.scriptModuleNames := by
  induction recs generalizing i flags matched with
  | nil => simp
  | cons rec rest ih =>
    intro r hr
    unfold ReadScriptModulesLoop at h
    cases hfind : FindModuleIndex pp.scriptModuleNames rec.name with
    | none =>
      rw [hfind] at h
      exact absurd h (by simp)
    | some gidx =>
      rw [hfind] at h
      rcases List.mem_cons.mp hr with hr1 | hr1
      · subst hr1
        obtain ⟨-, hget⟩ :=
          findModuleIndexFrom_some pp.scriptModuleNames r.name 0 gidx hfind
        exact List.getElem?_mem (by simpa using hget)
      · rcases hA : AssertGameObjectContent rec.dataLen
            (pp.scMdDataSize.getD i 0) i flags with ⟨ok1, e1, fl1⟩
        rw [hA] at h
        cases ok1 with
        | false => exact absurd h (by simp)
        | true => exact ih _ _ _ h r hr1

/-- If the per-record loop finishes and marks game module `j` as matched,
while it was unmarked initially, then some saved record's name was found at
index `j`. -/
theorem readScriptModulesLoop_matched (pp : PreservedParams)
    (recs : List ModuleRecord) (i : Nat) (flags : SaveRestorationFlags)
    (matched : List Bool) (out : SaveRestorationFlags × List Bool)
    (h : ReadScriptModulesLoop pp i recs flags matched = .ok out)
    (j : Nat) (hj : out.2[j]? = some true) :
    matched[j]? = some true ∨
      ∃ r ∈ recs, FindModuleIndex pp.scriptModuleNames r.name = some j := by
  induction recs generalizing i flags matched with
  | nil =>
    left
    obtain rfl : out = (flags, matched) := by
      simpa [ReadScriptModulesLoop] using h.symm
    exact hj
  | cons rec rest ih =>
    unfold ReadScriptModulesLoop at h
    cases hfind : FindModuleIndex pp.scriptModuleNames rec.name with
    | none =>
      rw [hfind] at h
      exact absurd h (by simp)
    | some gidx =>
      rw [hfind] at h
      rcases hA : AssertGameObjectContent rec.dataLen
          (pp.scMdDataSize.getD i 0) i flags with ⟨ok1, e1, fl1⟩
      rw [hA] at h
      cases ok1 with
      | false => exact absurd h (by simp)
      | true =>
        rcases ih _ _ _ h with hset | ⟨r, hr, hfr⟩
        · by_cases hje : j = gidx
          · subst hje
            exact Or.inr ⟨rec, List.mem_cons_self _ _, hfind⟩
          · left
            rwa [List.getElem?_set_ne (fun he => hje he.symm)] at hset
        · exact Or.inr ⟨r, List.mem_cons_of_mem _ hr, hfr⟩

/-- If the final check passes, every game module index is marked. -/
theorem firstMissingModule_none (names : List (List Nat))
    (matched : List Bool) (h : FirstMissingModule names matched = none) :
    ∀ j, j < names.length → matched[j]? = some true := by
  induction names generalizing matched with
  | nil => intro j hj; simp at hj
  | cons nm rest ih =>
    cases matched with
    | nil => simp [FirstMissingModule] at h
    | cons m ms =>
      cases m with
      | true =>
        have h1 : FirstMissingModule rest ms = none := by
          simpa [FirstMissingModule] using h
        intro j hj
        cases j with
        | zero => simp
        | succ k => simpa using ih ms h1 k (by simpa using hj)
      | false => simp [FirstMissingModule] at h

/-- The final check only ever produces missing-component errors. -/
theorem firstMissingModule_some (names : List (List Nat))
    (matched : List Bool) (e : SvgError)
    (h : FirstMissingModule names matched = some e) :
    ∃ nm, e = HandleMissingGameComponent nm := by
  induction names generalizing matched with
  | nil => simp [FirstMissingModule] at h
  | cons nm rest ih =>
    cases matched with
    | nil =>
      refine ⟨nm, ?_⟩
      simpa [FirstMissingModule] using h.symm
    | cons m ms =>
      cases m with
      | true => exact ih ms (by simpa [FirstMissingModule] using h)
      | false =>
        refine ⟨nm, ?_⟩
        simpa [FirstMissingModule] using h.symm

/-- Indexing a replicated list below its length. -/
theorem replicate_getElem?_lt (n j : Nat) (b : Bool) (h : j < n) :
    (List.replicate n b)[j]? = some b := by
  induction n generalizing j with
  | zero => omega
  | succ k ih =>
    cases j with
    | zero => simp [List.replicate]
    | succ m => simpa [List.replicate] using ih m (by omega)

/-- All three tolerance bits set. -/
def AllTolerant (f : SaveRestorationFlags) : Prop :=
  f.allowMismatchExtra = true ∧ f.allowMismatchLess = true ∧
    f.clearData = true

/-- With all tolerance bits set, a count mismatch is always tolerated, and
the tolerance bits survive the flag accumulation. -/
theorem handleGameContentMismatch_tolerant (n m : Nat) (msg : AssertMsg)
    (f : SaveRestorationFlags) (hf : AllTolerant f) :
    (HandleGameContentMismatch n m msg f).ok = true ∧
    AllTolerant (HandleGameContentMismatch n m msg f).flags := by
  obtain ⟨h1, h2, h3⟩ := hf
  unfold HandleGameContentMismatch
  by_cases hgt : n > m
  · simp [AllTolerant, h1, h2, h3, hgt]
  · simp [AllTolerant, h1, h2, h3, hgt]

/-- Tolerance for `AssertGameObjectContent`. -/
theorem assertGameObjectContent_tolerant (n m objId : Nat)
    (f : SaveRestorationFlags) (hf : AllTolerant f) :
    (AssertGameObjectContent n m objId f).ok = true ∧
    AllTolerant (AssertGameObjectContent n m objId f).flags := by
  unfold AssertGameObjectContent
  split
  · exact ⟨rfl, hf⟩
  · exact handleGameContentMismatch_tolerant n m _ f hf

/-- Tolerance for `AssertGameContent`. -/
theorem assertGameContent_tolerant (n m : Nat)
    (f : SaveRestorationFlags) (hf : AllTolerant f) :
    (AssertGameContent n m f).ok = true ∧
    AllTolerant (AssertGameContent n m f).flags := by
  unfold AssertGameContent
  split
  · exact ⟨rfl, hf⟩
  · exact handleGameContentMismatch_tolerant n m _ f hf

/-- With all tolerance bits set, the per-record loop either finishes or
fails through `HandleExtraGameComponent`. -/
theorem readScriptModulesLoop_tolerant (pp : PreservedParams)
    (recs : List ModuleRecord) (i : Nat) (flags : SaveRestorationFlags)
    (matched : List Bool) (hf : AllTolerant flags) :
    (∃ out, ReadScriptModulesLoop pp i recs flags matched = .ok out) ∨
    (∃ nm, ReadScriptModulesLoop pp i recs flags matched =
      .error (HandleExtraGameComponent nm)) := by
  induction recs generalizing i flags matched with
  | nil => exact Or.inl ⟨(flags, matched), rfl⟩
  | cons rec rest ih =>
    unfold ReadScriptModulesLoop
    cases hfind : FindModuleIndex pp.scriptModuleNames rec.name with
    | none => exact Or.inr ⟨rec.name, rfl⟩
    | some gidx =>
      rcases hA : AssertGameObjectContent rec.dataLen
          (pp.scMdDataSize.getD i 0) i flags with ⟨ok1, e1, fl1⟩
      obtain ⟨hok, hfl⟩ := assertGameObjectContent_tolerant rec.dataLen
        (pp.scMdDataSize.getD i 0) i flags hf
      rw [hA] at hok hfl
      subst hok
      exact ih (i + 1) fl1 (matched.set gidx true) hfl

/-- With all tolerance bits set, `ReadScriptModules` either succeeds or
fails through one of the two named-mismatch helpers. -/
theorem readScriptModules_cases (flags : SaveRestorationFlags)
    (pp : PreservedParams) (glDataLen : Nat) (recs : List ModuleRecord) :
    (∃ fl, ReadScriptModules flags pp glDataLen recs = .ok fl) ∨
    (∃ e, ReadScriptModules flags pp glDataLen recs = .error e ∧
      (AllTolerant flags → ∃ nm, e = HandleExtraGameComponent nm ∨
        e = HandleMissingGameComponent nm)) := by
  unfold ReadScriptModules
  split
  next e1 fl1 hA1 =>
    refine Or.inr ⟨_, rfl, fun hf => ?_⟩
    exfalso
    have h1 := (assertGameContent_tolerant glDataLen pp.glScDataSize flags hf).1
    rw [hA1] at h1
    simp at h1
  next e1 fl1 hA1 =>
    have hfl1 : AllTolerant flags → AllTolerant fl1 := by
      intro hf
      have h2 := (assertGameContent_tolerant glDataLen pp.glScDataSize
        flags hf).2
      rw [hA1] at h2
      exact h2
    split
    next e2 fl2 hA2 =>
      refine Or.inr ⟨_, rfl, fun hf => ?_⟩
      exfalso
      have h1 := (assertGameContent_tolerant recs.length
        pp.scriptModuleNames.length fl1 (hfl1 hf)).1
      rw [hA2] at h1
      simp at h1
    next e2 fl2 hA2 =>
      have hfl2 : AllTolerant flags → AllTolerant fl2 := by
        intro hf
        have h2 := (assertGameContent_tolerant recs.length
          pp.scriptModuleNames.length fl1 (hfl1 hf)).2
        rw [hA2] at h2
        exact h2
      split
      next e hloop =>
        refine Or.inr ⟨e, rfl, fun hf => ?_⟩
        rcases readScriptModulesLoop_tolerant pp recs 0 fl2
            (List.replicate pp.scriptModuleNames.length false)
            (hfl2 hf) with ⟨out, hout⟩ | ⟨nm, hout⟩
        · rw [hloop] at hout
          exact absurd hout (by simp)
        · rw [hloop] at hout
          exact ⟨nm, Or.inl (by simpa using hout)⟩
      next fl3 matched hloop =>
        split
        next e hfm =>
          refine Or.inr ⟨e, rfl, fun _ => ?_⟩
          obtain ⟨nm, rfl⟩ := firstMissingModule_some _ _ e hfm
          exact ⟨nm, Or.inr rfl⟩
        next hfm => exact Or.inl ⟨fl3, rfl⟩

/-- C8: a saved script module whose name is absent from the loaded game, or
a game script module whose name is absent from the save, makes
`ReadScriptModules` fail for every setting of the mismatch-tolerance flags;
and when all tolerance bits are set (so that no count assertion can fail
first), the failure is precisely the named-mismatch `GameContentAssertion`
from `HandleExtraGameComponent`/`HandleMissingGameComponent`. -/
theorem c8_named_module_mismatch (flags : SaveRestorationFlags)
    (pp : PreservedParams) (glDataLen : Nat) (recs : List ModuleRecord)
    (hmm : (∃ r ∈ recs, r.name ∉ pp.scriptModuleNames) ∨
           (∃ nm ∈ pp.scriptModuleNames, ∀ r ∈ recs, r.name ≠ nm)) :
    (∀ out, ReadScriptModules flags pp glDataLen recs ≠ .ok out) ∧
    (AllTolerant flags →
      ∃ nm, ReadScriptModules flags pp glDataLen recs =
          .error (.gameContentAssertion (.extraGameComponent nm)) ∨
        ReadScriptModules flags pp glDataLen recs =
          .error (.gameContentAssertion (.missingGameComponent nm))) := by
  have hnotok : ∀ out, ReadScriptModules flags pp glDataLen recs ≠ .ok out := by
    intro out hok
    unfold ReadScriptModules at hok
    split at hok
    · exact absurd hok (by simp)
    next e1 fl1 hA1 =>
      split at hok
      · exact absurd hok (by simp)
      next e2 fl2 hA2 =>
        split at hok
        · exact absurd hok (by simp)
        next fl3 matched hloop =>
          split at hok
          · exact absurd hok (by simp)
          next hfm =>
            rcases hmm with ⟨r, hr, hname⟩ | ⟨nm, hnm, hno⟩
            · exact hname (readScriptModulesLoop_ok_names pp recs 0 fl2 _
                (fl3, matched) hloop r hr)
            · obtain ⟨j, hjget⟩ := List.getElem?_of_mem hnm
              have hjlt : j < pp.scriptModuleNames.length := by
                by_contra hge
                rw [List.getElem?_eq_none (by omega)] at hjget
                exact absurd hjget (by simp)
              have hmarked := firstMissingModule_none _ _ hfm j hjlt
              rcases readScriptModulesLoop_matched pp recs 0 fl2 _
                  (fl3, matched) hloop j hmarked with hinit | ⟨r, hr, hfr⟩
              · rw [replicate_getElem?_lt _ j false hjlt] at hinit
                exact absurd hinit (by simp)
              · obtain ⟨-, hget⟩ :=
                  findModuleIndexFrom_some pp.scriptModuleNames r.name 0 j hfr
                have h1 : pp.scriptModuleNames[j]? = some r.name := by
                  simpa using hget
                exact hno r hr (Option.some.inj (h1.symm.trans hjget))
  refine ⟨hnotok, ?_⟩
  intro hf
  rcases readScriptModules_cases flags pp glDataLen recs with
    ⟨fl, hres⟩ | ⟨e, hres, hnamed⟩
  · exact absurd hres (hnotok fl)
  · obtain ⟨nm, he | he⟩ := hnamed hf
    · exact ⟨nm, Or.inl (hres.trans (by rw [he]; rfl))⟩
    · exact ⟨nm, Or.inr (hres.trans (by rw [he]; rfl))⟩

/-- Witness for C8: a game with module "A" and a save naming only module
"B" fails — here with all tolerance bits set, producing the named
extra-component assertion. -/
theorem c8_named_module_mismatch_witness :
    (∀ out, ReadScriptModules ⟨true, true, true, false, false⟩
        ⟨0, [[65]], [4]⟩ 0 [⟨[66], 4⟩] ≠ .ok out) ∧
    ReadScriptModules ⟨true, true, true, false, false⟩
        ⟨0, [[65]], [4]⟩ 0 [⟨[66], 4⟩] =
      .error (.gameContentAssertion (.extraGameComponent [66])) :=
  ⟨(c8_named_module_mismatch ⟨true, true, true, false, false⟩
      ⟨0, [[65]], [4]⟩ 0 [⟨[66], 4⟩]
      (Or.inl ⟨⟨[66], 4⟩, List.mem_cons_self _ _, by decide⟩)).1,
   rfl⟩

--------------------------------------------------------------------------
-- Claim C4: ReadCharacters writes past the game's character count
--------------------------------------------------------------------------

/-- C4 (evaluation of the defect): with 5 game characters, 7 saved records
and `AllowMismatchExtra` set, `ReadCharacters` succeeds and records
`ExtraDataInSave` — but its loop, bounded by `characters_read`, reads saved
character records into slots 5 and 6, at and beyond the game's character
count. -/
theorem c4_read_characters_writes_beyond_game_count :
    (ReadCharacters 5 7 ⟨true, false, false, false, false⟩).err = none ∧
    (ReadCharacters 5 7
        ⟨true, false, false, false, false⟩).flags.extraDataInSave = true ∧
    5 ∈ (ReadCharacters 5 7 ⟨true, false, false, false, false⟩).writtenSlots ∧
    6 ∈ (ReadCharacters 5 7 ⟨true, false, false, false, false⟩).writtenSlots := by
  decide

--------------------------------------------------------------------------
-- Claim C9: Views component round-trip
--------------------------------------------------------------------------

theorem leBytes_length (w v : Nat) : (leBytes w v).length = w := by
  induction w generalizing v with
  | zero => rfl
  | succ k ih => simp [leBytes, ih]

theorem leValue_leBytes (w v : Nat) : leValue (leBytes w v) = v % 256 ^ w := by
  induction w generalizing v with
  | zero => simp [leBytes, leValue, Nat.mod_one]
  | succ k ih =>
    simp only [leBytes, leValue, ih]
    rw [pow_succ' 256 k, Nat.mod_mul]
    simp

/-- A signed 32-bit value in range survives the encode/decode cycle. -/
theorem toSigned_leValue_int32Bytes (v : Int) (h1 : -(2 ^ 31) ≤ v)
    (h2 : v < 2 ^ 31) : toSigned 32 (leValue (int32Bytes v)) = v := by
  unfold int32Bytes
  rw [leValue_leBytes]
  have hm0 : 0 ≤ v % 2 ^ 32 := Int.emod_nonneg v (by norm_num)
  have hm1 : v % 2 ^ 32 < 2 ^ 32 := Int.emod_lt_of_pos v (by norm_num)
  have hv : v % 2 ^ 32 = v ∨ v % 2 ^ 32 = v + 2 ^ 32 := by omega
  have h256 : (256 : Nat) ^ 4 = 2 ^ 32 := by norm_num
  rw [h256]
  have htn : ((v % 2 ^ 32).toNat : Int) = v % 2 ^ 32 := Int.toNat_of_nonneg hm0
  have hlt : (v % 2 ^ 32).toNat < 2 ^ 32 := by omega
  rw [Nat.mod_eq_of_lt hlt]
  unfold toSigned
  split <;> rename_i hc <;> omega

/-- An unsigned count below 2^31 survives the encode/decode cycle. -/
theorem leValue_int32Bytes_nat (n : Nat) (h : n < 2 ^ 31) :
    leValue (int32Bytes (n : Int)) = n := by
  unfold int32Bytes
  rw [leValue_leBytes]
  have hm : ((n : Int) % 2 ^ 32) = (n : Int) := by omega
  rw [hm]
  have h256 : (256 : Nat) ^ 4 = 2 ^ 32 := by norm_num
  rw [Int.toNat_natCast, h256]
  omega

theorem int32Bytes_length (v : Int) : (int32Bytes v).length = 4 :=
  leBytes_length 4 _

/-- Reading a signed int32 at a position whose suffix starts with its
encoding. -/
theorem readInt32_at (data : List Nat) (p : Nat) (v : Int) (rest : List Nat)
    (hd : data.drop p = int32Bytes v ++ rest)
    (h1 : -(2 ^ 31) ≤ v) (h2 : v < 2 ^ 31) :
    RStream.readInt32 ⟨data, p⟩ = (v, ⟨data, p + 4⟩) := by
  have hlen : data.length - p = 4 + rest.length := by
    have := congrArg List.length hd
    simpa [int32Bytes_length] using this
  have hple : p + 4 ≤ data.length := by
    rcases le_or_lt p data.length with hle | hlt
    · omega
    · rw [List.drop_eq_nil_of_le (by omega)] at hd
      simp [← List.length_eq_zero, int32Bytes_length] at hd
  have htake : (data.drop p).take 4 = int32Bytes v := by
    rw [hd, ← int32Bytes_length v]
    exact List.take_left _ _
  unfold RStream.readInt32 RStream.readRaw
  simp only [htake, Nat.min_eq_left hple]
  rw [toSigned_leValue_int32Bytes v h1 h2]

/-- Reading an unsigned count at a position whose suffix starts with its
encoding. -/
theorem readUInt32_at (data : List Nat) (p : Nat) (n : Nat) (rest : List Nat)
    (hd : data.drop p = int32Bytes (n : Int) ++ rest) (hn : n < 2 ^ 31) :
    RStream.readUInt32 ⟨data, p⟩ = (n, ⟨data, p + 4⟩) := by
  have hlen : data.length - p = 4 + rest.length := by
    have := congrArg List.length hd
    simpa [int32Bytes_length] using this
  have hple : p + 4 ≤ data.length := by
    rcases le_or_lt p data.length with hle | hlt
    · omega
    · rw [List.drop_eq_nil_of_le (by omega)] at hd
      simp [← List.length_eq_zero, int32Bytes_length] at hd
  have htake : (data.drop p).take 4 = int32Bytes (n : Int) := by
    rw [hd, ← int32Bytes_length (n : Int)]
    exact List.take_left _ _
  unfold RStream.readUInt32 RStream.readRaw
  simp only [htake, Nat.min_eq_left hple]
  rw [leValue_int32Bytes_nat n hn]

/-- Dropping past a known prefix of the suffix at `p`. -/
theorem drop_add_of_prefix (data pre rest : List Nat) (p : Nat)
    (hd : data.drop p = pre ++ rest) :
    data.drop (p + pre.length) = rest := by
  have h1 : (data.drop p).drop pre.length = rest := by
    rw [hd]
    exact List.drop_left pre rest
  rw [List.drop_drop] at h1
  exact h1

/-- Frame fields representable as int32. -/
def FrameIn32 (f : ViewFrame) : Prop :=
  -(2 ^ 31) ≤ f.sound ∧ f.sound < 2 ^ 31 ∧ -(2 ^ 31) ≤ f.pic ∧ f.pic < 2 ^ 31

/-- Loop-by-loop equal frame cardinalities. -/
def LoopsShapeEq : List ViewLoopRow → List ViewLoopRow → Prop
  | [], [] => True
  | a :: as, b :: bs => a.frames.length = b.frames.length ∧ LoopsShapeEq as bs
  | _, _ => False

/-- View-by-view equal loop and frame cardinalities. -/
def ViewsShapeEq : List ViewStruct → List ViewStruct → Prop
  | [], [] => True
  | a :: as, b :: bs => LoopsShapeEq a.loops b.loops ∧ ViewsShapeEq as bs
  | _, _ => False

/-- Well-formed view table: every serialized count and field fits int32. -/
def ViewsWF (vs : List ViewStruct) : Prop :=
  vs.length < 2 ^ 31 ∧ ∀ v ∈ vs, v.loops.length < 2 ^ 31 ∧
    ∀ lp ∈ v.loops, lp.frames.length < 2 ^ 31 ∧ ∀ f ∈ lp.frames, FrameIn32 f

theorem loopsShapeEq_length (ls ls' : List ViewLoopRow)
    (h : LoopsShapeEq ls ls') : ls.length = ls'.length := by
  induction ls generalizing ls' with
  | nil => cases ls' with
    | nil => rfl
    | cons b bs => exact absurd h (by simp [LoopsShapeEq])
  | cons a as ih => cases ls' with
    | nil => exact absurd h (by simp [LoopsShapeEq])
    | cons b bs =>
      obtain ⟨-, h2⟩ := h
      simp [ih bs h2]

theorem viewsShapeEq_length (vs vs' : List ViewStruct)
    (h : ViewsShapeEq vs vs') : vs.length = vs'.length := by
  induction vs generalizing vs' with
  | nil => cases vs' with
    | nil => rfl
    | cons b bs => exact absurd h (by simp [ViewsShapeEq])
  | cons a as ih => cases vs' with
    | nil => exact absurd h (by simp [ViewsShapeEq])
    | cons b bs =>
      obtain ⟨-, h2⟩ := h
      simp [ih bs h2]

/-- The frame loop restores exactly the written frames and consumes exactly
the written bytes. -/
theorem readFramesList_roundtrip (fs : List ViewFrame) :
    ∀ (fs' : List ViewFrame) (data rest : List Nat) (p : Nat),
    fs'.length = fs.length →
    data.drop p = (fs.map WriteFrameBytes).flatten ++ rest →
    (∀ f ∈ fs, FrameIn32 f) →
    ReadFramesList fs' ⟨data, p⟩ =
      (fs, ⟨data, p + ((fs.map WriteFrameBytes).flatten).length⟩) := by
  induction fs with
  | nil =>
    intro fs' data rest p hlen hd hr
    have hnil : fs' = [] := List.length_eq_zero.mp (by simpa using hlen)
    subst hnil
    simp [ReadFramesList]
  | cons f ft ih =>
    intro fs' data rest p hlen hd hr
    cases fs' with
    | nil => simp at hlen
    | cons f' ft' =>
      have hlen' : ft'.length = ft.length := by simpa using hlen
      obtain ⟨hs1, hs2, hp1, hp2⟩ := hr f (List.mem_cons_self _ _)
      have hd1 : data.drop p = int32Bytes f.sound ++
          (int32Bytes f.pic ++ ((ft.map WriteFrameBytes).flatten ++ rest)) := by
        simpa [WriteFrameBytes, List.append_assoc] using hd
      have e1 := readInt32_at data p f.sound _ hd1 hs1 hs2
      have hd2 : data.drop (p + 4) = int32Bytes f.pic ++
          ((ft.map WriteFrameBytes).flatten ++ rest) := by
        have h2 := drop_add_of_prefix data _ _ p hd1
        rwa [int32Bytes_length] at h2
      have e2 := readInt32_at data (p + 4) f.pic _ hd2 hp1 hp2
      have hd3 : data.drop (p + 4 + 4) =
          (ft.map WriteFrameBytes).flatten ++ rest := by
        have h3 := drop_add_of_prefix data _ _ (p + 4) hd2
        rwa [int32Bytes_length] at h3
      have e3 := ih ft' data rest (p + 4 + 4) hlen' hd3
        (fun g hg => hr g (List.mem_cons_of_mem _ hg))
      have hpos : p + 4 + 4 + ((ft.map WriteFrameBytes).flatten).length =
          p + (((f :: ft).map WriteFrameBytes).flatten).length := by
        simp only [List.map_cons, List.flatten_cons, List.length_append,
          WriteFrameBytes, int32Bytes_length]
        omega
      simp only [ReadFramesList, e1, e2, e3, hpos]

/-- The per-view loop body restores exactly the written loops. -/
theorem readViewLoops_roundtrip (ls : List ViewLoopRow) :
    ∀ (ls' : List ViewLoopRow) (viewId loopId : Nat)
      (flags : SaveRestorationFlags) (data rest : List Nat) (p : Nat),
    LoopsShapeEq ls ls' →
    data.drop p = (ls.map WriteLoopBytes).flatten ++ rest →
    (∀ lp ∈ ls, lp.frames.length < 2 ^ 31 ∧ ∀ f ∈ lp.frames, FrameIn32 f) →
    ReadViewLoops viewId loopId ls' flags ⟨data, p⟩ =
      .ok (ls, flags,
        ⟨data, p + ((ls.map WriteLoopBytes).flatten).length⟩) := by
  induction ls with
  | nil =>
    intro ls' viewId loopId flags data rest p hsh hd hin
    cases ls' with
    | nil => simp [ReadViewLoops]
    | cons b bs => exact absurd hsh (by simp [LoopsShapeEq])
  | cons lp lt ih =>
    intro ls' viewId loopId flags data rest p hsh hd hin
    cases ls' with
    | nil => exact absurd hsh (by simp [LoopsShapeEq])
    | cons lp' lt' =>
      obtain ⟨hflen, hsh'⟩ := hsh
      obtain ⟨hlt31, hfin⟩ := hin lp (List.mem_cons_self _ _)
      have hd1 : data.drop p = int32Bytes (lp.frames.length : Int) ++
          ((lp.frames.map WriteFrameBytes).flatten ++
            ((lt.map WriteLoopBytes).flatten ++ rest)) := by
        simpa [WriteLoopBytes, List.append_assoc] using hd
      have e1 := readUInt32_at data p lp.frames.length _ hd1 hlt31
      have hassert : AssertGameObjectContent2 lp.frames.length
          lp'.frames.length viewId loopId flags = ⟨true, none, flags⟩ := by
        unfold AssertGameObjectContent2
        rw [if_pos hflen]
      have hd2 : data.drop (p + 4) =
          (lp.frames.map WriteFrameBytes).flatten ++
            ((lt.map WriteLoopBytes).flatten ++ rest) := by
        have h2 := drop_add_of_prefix data _ _ p hd1
        rwa [int32Bytes_length] at h2
      have htake : lp'.frames.take lp.frames.length = lp'.frames := by
        rw [hflen]
        exact List.take_length _
      have e2 : ReadFramesList (lp'.frames.take lp.frames.length)
          ⟨data, p + 4⟩ = (lp.frames, ⟨data,
            p + 4 + ((lp.frames.map WriteFrameBytes).flatten).length⟩) := by
        rw [htake]
        exact readFramesList_roundtrip lp.frames lp'.frames data _ (p + 4)
          hflen.symm hd2 hfin
      have hd3 : data.drop (p + 4 +
            ((lp.frames.map WriteFrameBytes).flatten).length) =
          (lt.map WriteLoopBytes).flatten ++ rest :=
        drop_add_of_prefix data _ _ (p + 4) hd2
      have e3 := ih lt' viewId (loopId + 1) flags data rest _ hsh' hd3
        (fun g hg => hin g (List.mem_cons_of_mem _ hg))
      have hdrop : lp'.frames.drop lp.frames.length = [] := by
        rw [hflen]
        exact List.drop_length _
      have hpos : p + 4 + ((lp.frames.map WriteFrameBytes).flatten).length +
          ((lt.map WriteLoopBytes).flatten).length =
          p + (((lp :: lt).map WriteLoopBytes).flatten).length := by
        simp only [List.map_cons, List.flatten_cons, List.length_append,
          WriteLoopBytes, int32Bytes_length]
        omega
      simp only [ReadViewLoops, e1, hassert, e2, e3, hdrop, List.append_nil,
        hpos]

/-- The per-view loop restores exactly the written views. -/
theorem readViewsList_roundtrip (vs : List ViewStruct) :
    ∀ (vs' : List ViewStruct) (viewId : Nat)
      (flags : SaveRestorationFlags) (data rest : List Nat) (p : Nat),
    ViewsShapeEq vs vs' →
    data.drop p = (vs.map WriteViewBytes).flatten ++ rest →
    (∀ v ∈ vs, v.loops.length < 2 ^ 31 ∧
      ∀ lp ∈ v.loops, lp.frames.length < 2 ^ 31 ∧
        ∀ f ∈ lp.frames, FrameIn32 f) →
    ReadViewsList viewId vs' flags ⟨data, p⟩ =
      .ok (vs, flags,
        ⟨data, p + ((vs.map WriteViewBytes).flatten).length⟩) := by
  induction vs with
  | nil =>
    intro vs' viewId flags data rest p hsh hd hin
    cases vs' with
    | nil => simp [ReadViewsList]
    | cons b bs => exact absurd hsh (by simp [ViewsShapeEq])
  | cons v vt ih =>
    intro vs' viewId flags data rest p hsh hd hin
    cases vs' with
    | nil => exact absurd hsh (by simp [ViewsShapeEq])
    | cons v' vt' =>
      obtain ⟨hlsh, hsh'⟩ := hsh
      obtain ⟨hvl31, hlin⟩ := hin v (List.mem_cons_self _ _)
      have hllen : v.loops.length = v'.loops.length :=
        loopsShapeEq_length _ _ hlsh
      have hd1 : data.drop p = int32Bytes (v.loops.length : Int) ++
          ((v.loops.map WriteLoopBytes).flatten ++
            ((vt.map WriteViewBytes).flatten ++ rest)) := by
        simpa [WriteViewBytes, List.append_assoc] using hd
      have e1 := readUInt32_at data p v.loops.length _ hd1 hvl31
      have hassert : AssertGameObjectContent v.loops.length
          v'.loops.length viewId flags = ⟨true, none, flags⟩ := by
        unfold AssertGameObjectContent
        rw [if_pos hllen]
      have hd2 : data.drop (p + 4) =
          (v.loops.map WriteLoopBytes).flatten ++
            ((vt.map WriteViewBytes).flatten ++ rest) := by
        have h2 := drop_add_of_prefix data _ _ p hd1
        rwa [int32Bytes_length] at h2
      have htake : v'.loops.take v.loops.length = v'.loops := by
        rw [hllen]
        exact List.take_length _
      have e2 : ReadViewLoops viewId 0 (v'.loops.take v.loops.length) flags
          ⟨data, p + 4⟩ = .ok (v.loops, flags, ⟨data,
            p + 4 + ((v.loops.map WriteLoopBytes).flatten).length⟩) := by
        rw [htake]
        exact readViewLoops_roundtrip v.loops v'.loops viewId 0 flags data _
          (p + 4) hlsh hd2 hlin
      have hd3 : data.drop (p + 4 +
            ((v.loops.map WriteLoopBytes).flatten).length) =
          (vt.map WriteViewBytes).flatten ++ rest :=
        drop_add_of_prefix data _ _ (p + 4) hd2
      have e3 := ih vt' (viewId + 1) flags data rest _ hsh' hd3
        (fun g hg => hin g (List.mem_cons_of_mem _ hg))
      have hdrop : v'.loops.drop v.loops.length = [] := by
        rw [hllen]
        exact List.drop_length _
      have hpos : p + 4 + ((v.loops.map WriteLoopBytes).flatten).length +
          ((vt.map WriteViewBytes).flatten).length =
          p + (((v :: vt).map WriteViewBytes).flatten).length := by
        simp only [List.map_cons, List.flatten_cons, List.length_append,
          WriteViewBytes, int32Bytes_length]
        omega
      simp only [ReadViewsList, e1, hassert, e2, e3, hdrop, List.append_nil,
        hpos]

/-- C9: for a game whose view/loop/frame cardinalities match the written
state, `ReadViews` applied to the output of `WriteViews` succeeds, returns
the restoration flags unchanged (no mismatch recorded), restores every
frame's sound and pic to exactly the written values, and consumes exactly
the written bytes. -/
theorem c9_views_roundtrip (vs gv : List ViewStruct)
    (flags : SaveRestorationFlags) (rest : List Nat)
    (hsh : ViewsShapeEq vs gv) (hwf : ViewsWF vs) :
    ReadViews gv flags ⟨WriteViews vs ++ rest, 0⟩ =
      .ok (vs, flags, ⟨WriteViews vs ++ rest, (WriteViews vs).length⟩) := by
  obtain ⟨hlen31, hin⟩ := hwf
  have hvlen : vs.length = gv.length := viewsShapeEq_length _ _ hsh
  have hd1 : (WriteViews vs ++ rest).drop 0 =
      int32Bytes (vs.length : Int) ++
        ((vs.map WriteViewBytes).flatten ++ rest) := by
    simp [WriteViews, List.append_assoc]
  have e1 := readUInt32_at (WriteViews vs ++ rest) 0 vs.length _ hd1 hlen31
  have hassert : AssertGameContent vs.length gv.length flags =
      ⟨true, none, flags⟩ := by
    unfold AssertGameContent
    rw [if_pos hvlen]
  have hd2 : (WriteViews vs ++ rest).drop (0 + 4) =
      (vs.map WriteViewBytes).flatten ++ rest := by
    have h2 := drop_add_of_prefix (WriteViews vs ++ rest) _ _ 0 hd1
    rwa [int32Bytes_length] at h2
  have htake : gv.take vs.length = gv := by
    rw [hvlen]
    exact List.take_length _
  have e2 : ReadViewsList 0 (gv.take vs.length) flags
      ⟨WriteViews vs ++ rest, 0 + 4⟩ = .ok (vs, flags,
        ⟨WriteViews vs ++ rest,
         0 + 4 + ((vs.map WriteViewBytes).flatten).length⟩) := by
    rw [htake]
    exact readViewsList_roundtrip vs gv 0 flags (WriteViews vs ++ rest) rest
      (0 + 4) hsh hd2 hin
  have hdrop : gv.drop vs.length = [] := by
    rw [hvlen]
    exact List.drop_length _
  have hpos : 0 + 4 + ((vs.map WriteViewBytes).flatten).length =
      (WriteViews vs).length := by
    simp only [WriteViews, List.length_append, int32Bytes_length]
  simp only [ReadViews, e1, hassert, e2, hdrop, List.append_nil, hpos]

/-- Witness for C9: a concrete one-view, one-loop, two-frame table
round-trips exactly into a game table of the same shape. -/
theorem c9_views_roundtrip_witness :
    ReadViews [⟨[⟨[⟨0, 0⟩, ⟨1, 1⟩]⟩]⟩] ⟨false, false, false, false, false⟩
      ⟨WriteViews [⟨[⟨[⟨5, 7⟩, ⟨-3, 2⟩]⟩]⟩] ++ [], 0⟩ =
      .ok ([⟨[⟨[⟨5, 7⟩, ⟨-3, 2⟩]⟩]⟩], ⟨false, false, false, false, false⟩,
        ⟨WriteViews [⟨[⟨[⟨5, 7⟩, ⟨-3, 2⟩]⟩]⟩] ++ [],
         (WriteViews [⟨[⟨[⟨5, 7⟩, ⟨-3, 2⟩]⟩]⟩]).length⟩) := by
  refine c9_views_roundtrip _ _ _ _ ?_ ?_
  · simp [ViewsShapeEq, LoopsShapeEq]
  · unfold ViewsWF FrameIn32
    refine ⟨by norm_num, ?_⟩
    decide

/-- Each staged channel record has a non-negative position. -/
theorem readAudioChannel_pos_nonneg (v : Int) (s : RStream) :
    0 ≤ (ReadAudioChannel v s).1.pos := by
  unfold ReadAudioChannel
  dsimp only
  split
  · split
    · dsimp only
      split <;> omega
    · dsimp only
      split <;> omega
  · dsimp only
    omega

/-- C10: every audio channel record staged by the `ReadAudio` channel loop
with a non-negative clip id has a non-negative playback position — a
negative saved position is clamped to 0. -/
theorem c10_audio_position_clamped (cmpVer : Int) (n : Nat) (s : RStream)
    (c : ChannelInfo) (hc : c ∈ (ReadAudioChannels cmpVer n s).1)
    (hclip : 0 ≤ c.clipID) : 0 ≤ c.pos := by
  induction n generalizing s with
  | zero => simp [ReadAudioChannels] at hc
  | succ k ih =>
    simp only [ReadAudioChannels, List.mem_cons] at hc
    rcases hc with h | h
    · subst h
      exact readAudioChannel_pos_nonneg cmpVer s
    · exact ih _ h

/-- Byte fixture for the C10 witness: one saved channel record with clip
id 3 and saved position -9 (version `kAudioSvgVersion_36009` layout). -/
def audioClampFixture : RStream :=
  ⟨int32Bytes 3 ++ int32Bytes (-9) ++ int32Bytes 5 ++ int32Bytes 1 ++
   int32Bytes 200 ++ int32Bytes 0 ++ int32Bytes 90 ++ int32Bytes 0 ++
   int32Bytes 1000 ++ int32Bytes 0 ++ int32Bytes 0 ++ int32Bytes 0, 0⟩

/-- Witness for C10: the channel record saved with clip id 3 and position
-9 is staged with position 0. -/
theorem c10_audio_position_clamped_witness :
    (ReadAudioChannel 2 audioClampFixture).1 ∈
      (ReadAudioChannels 2 1 audioClampFixture).1 ∧
    0 ≤ (ReadAudioChannel 2 audioClampFixture).1.clipID ∧
    (ReadAudioChannel 2 audioClampFixture).1.pos = 0 ∧
    0 ≤ (ReadAudioChannel 2 audioClampFixture).1.pos := by
  refine ⟨by decide, by decide, by decide, ?_⟩
  exact c10_audio_position_clamped 2 1 audioClampFixture _ (by decide)
    (by decide)


--------------------------------------------------------------------------
-- Write stream and WriteComponent (claim C2)
--------------------------------------------------------------------------

/-- A write stream: buffer and cursor.  Writing overwrites in place while
the cursor is inside the buffer and appends at the end, as a seekable
stream does. -/
structure WStream where
  buf : List Nat
  pos : Nat
  deriving DecidableEq, Repr

/-- Write one byte at the cursor. -/
def WStream.writeByte (s : WStream) (b : Nat) : WStream :=
  if s.pos < s.buf.length then ⟨s.buf.set s.pos b, s.pos + 1⟩
  else ⟨s.buf ++ [b], s.pos + 1⟩

/-- Write a byte sequence at the cursor. -/
def WStream.writeBytes (s : WStream) : List Nat → WStream
  | [] => s
  | b :: bs => (s.writeByte b).writeBytes bs

/-- `WriteFormatTag(out, name, true)`: the bytes of `<name>` (60 and 62 are
the codes of the angle brackets). -/
def tagOpenBytes (name : List Nat) : List Nat := 60 :: (name ++ [62])

/-- `WriteFormatTag(out, name, false)`: the bytes of `</name>` (47 is the
slash). -/
def tagCloseBytes (name : List Nat) : List Nat := 60 :: 47 :: (name ++ [62])

/-- `WriteInt32`. -/
def WStream.writeInt32 (s : WStream) (v : Int) : WStream :=
  s.writeBytes (int32Bytes v)

/-- `WriteInt64`. -/
def WStream.writeInt64 (s : WStream) (v : Int) : WStream :=
  s.writeBytes (int64Bytes v)

/-- A component write handler: name, version, and `Serialize` function.
The `Bool` is the `HSaveError` converted to `bool`: `true` on success. -/
structure WHandler where
  name : List Nat
  version : Int
  serialize : WStream → WStream × Bool

/-- `WriteComponent` (lines 1645-1659): write `<Name>`, the version, an
8-byte size placeholder, run the serializer, seek back and patch the actual
payload size, seek to the end again — then `if (err) WriteFormatTag(out,
hdlr.Name, false);`, which (since `HSaveError` converts to `true` on
success) appends the closing tag exactly when the serializer succeeded —
and return the serializer's error. -/
def WriteComponent (hdlr : WHandler) (s : WStream) : WStream × Bool :=
  let s1 := s.writeBytes (tagOpenBytes hdlr.name)
  let s2 := s1.writeInt32 hdlr.version
  let refPos := s2.pos
  let s3 := s2.writeInt64 0
  let r := hdlr.serialize s3
  let endPos := r.1.pos
  let s5 := (WStream.mk r.1.buf refPos).writeInt64
    ((endPos : Int) - (refPos : Int) - 8)
  let s6 := WStream.mk s5.buf endPos
  let s7 := if r.2 then s6.writeBytes (tagCloseBytes hdlr.name) else s6
  (s7, r.2)

/-- Writing with the cursor at the end appends. -/
theorem writeBytes_append (s : WStream) (bs : List Nat)
    (h : s.pos = s.buf.length) :
    s.writeBytes bs = ⟨s.buf ++ bs, s.buf.length + bs.length⟩ := by
  induction bs generalizing s with
  | nil =>
    obtain ⟨bf, p⟩ := s
    simp at h
    simp [WStream.writeBytes, h]
  | cons b bt ih =>
    have hb : s.writeByte b = ⟨s.buf ++ [b], s.pos + 1⟩ := by
      unfold WStream.writeByte
      rw [if_neg (by omega)]
    have hstep : s.writeBytes (b :: bt) =
        (WStream.mk (s.buf ++ [b]) (s.pos + 1)).writeBytes bt := by
      show (s.writeByte b).writeBytes bt = _
      rw [hb]
    rw [hstep, ih ⟨s.buf ++ [b], s.pos + 1⟩ (by simp [h])]
    simp
    omega

/-- Writing entirely inside the buffer preserves its length. -/
theorem writeBytes_within (s : WStream) (bs : List Nat)
    (h : s.pos + bs.length ≤ s.buf.length) :
    (s.writeBytes bs).buf.length = s.buf.length ∧
    (s.writeBytes bs).pos = s.pos + bs.length := by
  induction bs generalizing s with
  | nil => simp [WStream.writeBytes]
  | cons b bt ih =>
    have hlt : s.pos < s.buf.length := by
      simp at h
      omega
    have hb : s.writeByte b = ⟨s.buf.set s.pos b, s.pos + 1⟩ := by
      unfold WStream.writeByte
      rw [if_pos hlt]
    have hstep : s.writeBytes (b :: bt) =
        (WStream.mk (s.buf.set s.pos b) (s.pos + 1)).writeBytes bt := by
      show (s.writeByte b).writeBytes bt = _
      rw [hb]
    rw [hstep]
    obtain ⟨h1, h2⟩ := ih ⟨s.buf.set s.pos b, s.pos + 1⟩ (by
      simp
      simp at h
      omega)
    refine ⟨?_, ?_⟩
    · rw [h1]
      simp
    · rw [h2]
      simp
      omega

theorem int64Bytes_length (v : Int) : (int64Bytes v).length = 8 :=
  leBytes_length 8 _

/-- C2 (counterexample to the claim as stated): a serializer that succeeds.
`WriteComponent` reports success and its output ends with the closing tag
`</A>` right after the payload region — the closing tag is written on
success, not only on failure as the claim states. -/
theorem c2_closing_tag_on_success_cex :
    (WriteComponent ⟨[65], 0, fun t => (t, true)⟩ ⟨[], 0⟩).2 = true ∧
    (WriteComponent ⟨[65], 0, fun t => (t, true)⟩ ⟨[], 0⟩).1.buf =
      tagOpenBytes [65] ++ int32Bytes 0 ++ int64Bytes 0 ++
        tagCloseBytes [65] := by
  decide

/-- C2 (amended): `WriteComponent` emits the closing tag exactly when the
serialize handler succeeds.  For any byte-level payload behaviour `f` (one
that leaves the cursor at the end of a buffer it did not shrink), the
successful variant reports success and its buffer is the failing variant's
buffer with the closing tag appended; the failing variant reports failure
and appends no closing tag. -/
theorem c2_closing_tag_iff_success (name : List Nat) (ver : Int)
    (f : WStream → WStream)
    (hf : ∀ t, t.pos = t.buf.length →
      (f t).pos = (f t).buf.length ∧ t.buf.length ≤ (f t).buf.length)
    (s : WStream) (hs : s.pos = s.buf.length) :
    (WriteComponent ⟨name, ver, fun t => (f t, true)⟩ s).2 = true ∧
    (WriteComponent ⟨name, ver, fun t => (f t, false)⟩ s).2 = false ∧
    (WriteComponent ⟨name, ver, fun t => (f t, true)⟩ s).1.buf =
      (WriteComponent ⟨name, ver, fun t => (f t, false)⟩ s).1.buf ++
        tagCloseBytes name := by
  refine ⟨rfl, rfl, ?_⟩
  have hchain2 : (s.writeBytes (tagOpenBytes name)).writeInt32 ver =
      ⟨(s.buf ++ tagOpenBytes name) ++ int32Bytes ver,
       (s.buf ++ tagOpenBytes name).length + (int32Bytes ver).length⟩ := by
    unfold WStream.writeInt32
    rw [writeBytes_append s _ hs]
    rw [writeBytes_append _ (int32Bytes ver) (by simp <;> omega)]
  have hchain3 : (WStream.mk
      ((s.buf ++ tagOpenBytes name) ++ int32Bytes ver)
      ((s.buf ++ tagOpenBytes name).length +
        (int32Bytes ver).length)).writeInt64 0 =
      ⟨((s.buf ++ tagOpenBytes name) ++ int32Bytes ver) ++ int64Bytes 0,
       ((s.buf ++ tagOpenBytes name) ++ int32Bytes ver).length +
         (int64Bytes 0).length⟩ := by
    unfold WStream.writeInt64
    rw [writeBytes_append _ _ (by simp <;> omega)]
  unfold WriteComponent
  dsimp only
  rw [hchain2, hchain3]
  dsimp only
  obtain ⟨hfp, hfg⟩ := hf
    ⟨((s.buf ++ tagOpenBytes name) ++ int32Bytes ver) ++ int64Bytes 0,
     ((s.buf ++ tagOpenBytes name) ++ int32Bytes ver).length +
       (int64Bytes 0).length⟩ (by simp <;> omega)
  set F := f ⟨((s.buf ++ tagOpenBytes name) ++ int32Bytes ver) ++
      int64Bytes 0,
    ((s.buf ++ tagOpenBytes name) ++ int32Bytes ver).length +
      (int64Bytes 0).length⟩ with hFdef
  clear_value F
  obtain ⟨fbuf, fpos⟩ := F
  dsimp only at hfp hfg ⊢
  subst hfp
  unfold WStream.writeInt64
  obtain ⟨hwl, -⟩ := writeBytes_within
    ⟨fbuf, (s.buf ++ tagOpenBytes name).length + (int32Bytes ver).length⟩
    (int64Bytes ((fbuf.length : Int) -
      (((s.buf ++ tagOpenBytes name).length + (int32Bytes ver).length : Nat) :
        Int) - 8))
    (by
      dsimp only
      simp only [int64Bytes_length]
      simp only [List.length_append, int32Bytes_length,
        int64Bytes_length] at hfg ⊢
      omega)
  rw [writeBytes_append _ (tagCloseBytes name) (by
    dsimp only
    rw [hwl])]
  simp

/-- Witness for the amended C2: with a concrete no-op payload, the
successful component write ends in the closing tag appended to the failing
variant's bytes. -/
theorem c2_closing_tag_iff_success_witness :
    (WriteComponent ⟨[65], 0, fun t => (t, true)⟩ ⟨[], 0⟩).2 = true ∧
    (WriteComponent ⟨[65], 0, fun t => (t, false)⟩ ⟨[], 0⟩).2 = false ∧
    (WriteComponent ⟨[65], 0, fun t => (t, true)⟩ ⟨[], 0⟩).1.buf =
      (WriteComponent ⟨[65], 0, fun t => (t, false)⟩ ⟨[], 0⟩).1.buf ++
        tagCloseBytes [65] :=
  c2_closing_tag_iff_success [65] 0 (fun t => t)
    (fun t ht => ⟨ht, Nat.le_refl _⟩) ⟨[], 0⟩ rfl

--------------------------------------------------------------------------
-- Read-side tag parsing and the stream orchestrator (claims C5, C6, C7)
--------------------------------------------------------------------------

/-- The name-accumulation loop of `ReadFormatTag` (lines 97-105): scan
bytes until `>` (code 62), returning the accumulated name and the number of
bytes consumed including the `>`; `none` if end-of-stream comes first. -/
def readTagChars : List Nat → Option (List Nat × Nat)
  | [] => none
  | c :: rest =>
    if c = 62 then some ([], 1)
    else (readTagChars rest).map (fun r => (c :: r.1, r.2 + 1))

/-- `ReadFormatTag` (lines 91-106): expect `<` (code 60), then `/` (code
47) for a closing tag, then the name up to `>`.  On failure the stream is
left wherever the scan stopped (callers either seek back explicitly or
abort). -/
def ReadFormatTag (opn : Bool) (s : RStream) : Option (List Nat) × RStream :=
  match s.readByte with
  | (some 60, s1) =>
    let pre :=
      if opn then (true, s1)
      else match s1.readByte with
        | (some 47, s2) => (true, s2)
        | (_, s2) => (false, s2)
    if pre.1 then
      match readTagChars (pre.2.data.drop pre.2.pos) with
      | some r => (some r.1, ⟨pre.2.data, pre.2.pos + r.2⟩)
      | none => (none, ⟨pre.2.data, pre.2.data.length⟩)
    else (none, pre.2)
  | (_, s1) => (none, s1)

/-- `AssertFormatTag` (lines 109-115): read a tag and compare it to the
expected name. -/
def AssertFormatTag (name : List Nat) (opn : Bool) (s : RStream) :
    Bool × RStream :=
  match ReadFormatTag opn s with
  | (some readTag, s1) => (readTag == name, s1)
  | (none, s1) => (false, s1)

/-- A read-side component handler (`ComponentHandler`): name, current
version, lowest supported version, selection bit mask, and the optional
`Unserialize` function.  An unserialize function receives the component
version, the declared data size and the stream, and returns the new stream
position on success (the engine's deserializers read and seek the stream
but never modify its bytes). -/
structure RHandler where
  name : List Nat
  version : Int
  lowestVersion : Int
  selection : Nat
  unserialize : Option (Int → Int → RStream → Except SvgError Nat)

/-- `GenerateHandlersMap` plus `equal_range` (lines 1517-1523 and 1572):
the handlers sharing a name, in registration-table order (a C++
`std::multimap` preserves insertion order among equivalent keys). -/
def handlersFor (table : List RHandler) (name : List Nat) : List RHandler :=
  table.filter (fun h => h.name == name)

/-- Relative `Seek` from the current position, clamped to the stream
bounds as the engine's streams clamp. -/
def RStream.seekRel (s : RStream) (off : Int) : RStream :=
  ⟨s.data, min ((s.pos : Int) + off).toNat s.data.length⟩

/-- The dispatch-and-payload part of `ReadComponent` (lines 1570-1607),
after the header has been parsed: find the handlers for the name
(`UnsupportedComponent` if none), choose the first one enabled by the
selection mask, version-gate and run its unserializer if it has one,
otherwise seek past the declared size; then enforce the size framing
(`ComponentSizeMismatch`) and the closing tag
(`ComponentClosingTagFormat`). -/
def ReadComponentDispatch (table : List RHandler) (mask : Nat)
    (name : List Nat) (ver size : Int) (s3 : RStream) (dataOffset : Nat) :
    Except SvgError RStream :=
  let hs := handlersFor table name
  if hs.isEmpty then .error .unsupportedComponent
  else
    let handler? := hs.find? (fun h => h.selection &&& mask != 0)
    let afterPayload : Except SvgError RStream :=
      match handler? with
      | some h =>
        match h.unserialize with
        | some uns =>
          if ver > h.version ∨ ver < h.lowestVersion then
            .error .unsupportedComponentVersion
          else
            match uns ver size s3 with
            | .error e => .error e
            | .ok newPos => .ok ⟨s3.data, min newPos s3.data.length⟩
        | none => .ok (s3.seekRel size)
      | none => .ok (s3.seekRel size)
    match afterPayload with
    | .error e => .error e
    | .ok s4 =>
      if (s4.pos : Int) - (dataOffset : Int) ≠ size then
        .error .componentSizeMismatch
      else
        match AssertFormatTag name false s4 with
        | (true, s5) => .ok s5
        | (false, _) => .error .componentClosingTagFormat

/-- `ReadComponent` (lines 1559-1608), for stream format
`kSvgVersion_Cmp_64bit` and later (64-bit sizes): parse `<Name>`, the
32-bit version and the 64-bit size, record the data offset, and
dispatch. -/
def ReadComponent (table : List RHandler) (mask : Nat) (s0 : RStream) :
    Except SvgError RStream :=
  match ReadFormatTag true s0 with
  | (none, _) => .error .componentOpeningTagFormat
  | (some name, s1) =>
    let r2 := s1.readInt32
    let r3 := r2.2.readInt64
    ReadComponentDispatch table mask name r2.1 r3.1 r3.2 r3.2.pos

/-- The `"Components"` list tag as ASCII codes. -/
def ComponentListTag : List Nat :=
  [67, 111, 109, 112, 111, 110, 101, 110, 116, 115]

/-- The component-reading loop of `ReadAll` (lines 1620-1641): peek for the
closing envelope tag (the only success path), seek back on failure and
read one component (wrapping its error as `ComponentUnserialization`), and
exit with `ComponentListClosingTagMissing` when end-of-stream follows a
completely-read component.  `fuel` bounds the iteration count for
termination; `modelFuelExhausted` marks the (pathological) diverging case
and no theorem relies on it. -/
def ReadAllLoop (table : List RHandler) (mask : Nat) :
    Nat → RStream → Except SvgError RStream
  | 0, _ => .error .modelFuelExhausted
  | fuel + 1, s =>
    match AssertFormatTag ComponentListTag false s with
    | (true, s1) => .ok s1
    | (false, _) =>
      match ReadComponent table mask ⟨s.data, s.pos⟩ with
      | .error e => .error (.componentUnserialization e)
      | .ok s2 =>
        if s2.eos then .error .componentListClosingTagMissing
        else ReadAllLoop table mask fuel s2

/-- `ReadAll` (lines 1610-1643): assert the `<Components>` opening tag
(`ComponentListOpeningTagFormat` otherwise), then run the loop. -/
def ReadAll (table : List RHandler) (mask : Nat) (s : RStream) :
    Except SvgError RStream :=
  match AssertFormatTag ComponentListTag true s with
  | (false, _) => .error .componentListOpeningTagFormat
  | (true, s1) => ReadAllLoop table mask (s1.data.length + 1 - s1.pos) s1

/-- Head byte of a known suffix. -/
theorem getElem?_of_drop_cons (data t : List Nat) (b p : Nat)
    (hd : data.drop p = b :: t) : data[p]? = some b := by
  have h0 : (data.drop p)[0]? = some b := by rw [hd]; simp
  rwa [List.getElem?_drop, Nat.add_zero] at h0

/-- A present byte splits the suffix. -/
theorem drop_eq_cons_of_getElem? (data : List Nat) (p b : Nat)
    (h : data[p]? = some b) :
    data.drop p = b :: data.drop (p + 1) := by
  have hlt : p < data.length := by
    by_contra hge
    rw [List.getElem?_eq_none (by omega)] at h
    exact absurd h (by simp)
  rw [List.drop_eq_getElem_cons hlt]
  have hb : data[p] = b := by
    rw [List.getElem?_eq_getElem hlt] at h
    exact Option.some.inj h
  rw [hb]

/-- Forward scan of a well-formed tag name (no `>` inside). -/
theorem readTagChars_append (name : List Nat) (hn : 62 ∉ name)
    (rest : List Nat) :
    readTagChars (name ++ 62 :: rest) = some (name, name.length + 1) := by
  induction name with
  | nil => simp [readTagChars]
  | cons c ct ih =>
    have hc : ¬ c = 62 := fun h => hn (by simp [h])
    have hct : 62 ∉ ct := fun h => hn (List.mem_cons_of_mem _ h)
    simp [readTagChars, hc, ih hct]

/-- Inverse characterization of the tag-name scan. -/
theorem readTagChars_spec (l : List Nat) :
    ∀ (cs : List Nat) (k : Nat), readTagChars l = some (cs, k) →
    k = cs.length + 1 ∧ l.take k = cs ++ [62] := by
  induction l with
  | nil => intro cs k h; simp [readTagChars] at h
  | cons c rest ih =>
    intro cs k h
    unfold readTagChars at h
    split at h
    · rename_i hc
      simp only [Option.some.injEq, Prod.mk.injEq] at h
      obtain ⟨h1, h2⟩ := h
      subst h1
      subst h2
      simp [hc]
    · rename_i hc
      cases hr : readTagChars rest with
      | none =>
        rw [hr] at h
        simp at h
      | some r =>
        obtain ⟨r1, r2⟩ := r
        rw [hr] at h
        simp only [Option.map_some', Option.some.injEq, Prod.mk.injEq] at h
        obtain ⟨h1, h2⟩ := h
        subst h1
        subst h2
        obtain ⟨ih1, ih2⟩ := ih r1 r2 hr
        subst ih1
        simp [List.take_succ_cons, ih2]

/-- Forward parse of an opening tag at a known prefix. -/
theorem readFormatTag_open_at (name : List Nat) (hn : 62 ∉ name)
    (data rest : List Nat) (p : Nat)
    (hd : data.drop p = tagOpenBytes name ++ rest) :
    ReadFormatTag true ⟨data, p⟩ =
      (some name, ⟨data, p + (name.length + 2)⟩) := by
  have hd0 : data.drop p = 60 :: ((name ++ [62]) ++ rest) := by
    simpa [tagOpenBytes] using hd
  have hb0 : data[p]? = some 60 := getElem?_of_drop_cons data _ 60 p hd0
  have hrb : RStream.readByte ⟨data, p⟩ = (some 60, ⟨data, p + 1⟩) := by
    unfold RStream.readByte
    rw [hb0]
  have hd1 : data.drop (p + 1) = name ++ 62 :: rest := by
    have h1 := drop_add_of_prefix data [60] ((name ++ [62]) ++ rest) p
      (by simpa using hd0)
    simpa using h1
  unfold ReadFormatTag
  rw [hrb]
  simp only [hd1, readTagChars_append name hn rest]
  have harith : p + 1 + (name.length + 1) = p + (name.length + 2) := by omega
  simp [harith, hd1, readTagChars_append name hn rest]

/-- Forward parse of a closing tag at a known prefix. -/
theorem readFormatTag_close_at (name : List Nat) (hn : 62 ∉ name)
    (data rest : List Nat) (p : Nat)
    (hd : data.drop p = tagCloseBytes name ++ rest) :
    ReadFormatTag false ⟨data, p⟩ =
      (some name, ⟨data, p + (name.length + 3)⟩) := by
  have hd0 : data.drop p = 60 :: (47 :: ((name ++ [62]) ++ rest)) := by
    simpa [tagCloseBytes] using hd
  have hb0 : data[p]? = some 60 := getElem?_of_drop_cons data _ 60 p hd0
  have hrb : RStream.readByte ⟨data, p⟩ = (some 60, ⟨data, p + 1⟩) := by
    unfold RStream.readByte
    rw [hb0]
  have hd1 : data.drop (p + 1) = 47 :: ((name ++ [62]) ++ rest) := by
    have h1 := drop_add_of_prefix data [60]
      (47 :: ((name ++ [62]) ++ rest)) p (by simpa using hd0)
    simpa using h1
  have hb1 : data[p + 1]? = some 47 := getElem?_of_drop_cons data _ 47 _ hd1
  have hrb1 : RStream.readByte ⟨data, p + 1⟩ = (some 47, ⟨data, p + 2⟩) := by
    unfold RStream.readByte
    rw [hb1]
  have hd2 : data.drop (p + 2) = name ++ 62 :: rest := by
    have h2 := drop_add_of_prefix data [47] ((name ++ [62]) ++ rest) (p + 1)
      (by simpa using hd1)
    have h3 : p + 1 + ([47] : List Nat).length = p + 2 := by simp
    rw [h3] at h2
    simpa using h2
  unfold ReadFormatTag
  rw [hrb]
  simp only [hrb1, hd2, readTagChars_append name hn rest]
  have harith : p + 2 + (name.length + 1) = p + (name.length + 3) := by omega
  simp [harith, hd2, readTagChars_append name hn rest]

/-- Forward assertion of an opening tag at a known prefix. -/
theorem assertFormatTag_open_at (name : List Nat) (hn : 62 ∉ name)
    (data rest : List Nat) (p : Nat)
    (hd : data.drop p = tagOpenBytes name ++ rest) :
    AssertFormatTag name true ⟨data, p⟩ =
      (true, ⟨data, p + (name.length + 2)⟩) := by
  unfold AssertFormatTag
  rw [readFormatTag_open_at name hn data rest p hd]
  simp

/-- Forward assertion of a closing tag at a known prefix. -/
theorem assertFormatTag_close_at (name : List Nat) (hn : 62 ∉ name)
    (data rest : List Nat) (p : Nat)
    (hd : data.drop p = tagCloseBytes name ++ rest) :
    AssertFormatTag name false ⟨data, p⟩ =
      (true, ⟨data, p + (name.length + 3)⟩) := by
  unfold AssertFormatTag
  rw [readFormatTag_close_at name hn data rest p hd]
  simp

/-- Inverse characterization of a successful closing-tag parse: the name's
bytes are really at the cursor, and the cursor advances past them. -/
theorem readFormatTag_close_some (s : RStream) (nm : List Nat) (t : RStream)
    (h : ReadFormatTag false s = (some nm, t)) :
    t.data = s.data ∧ t.pos = s.pos + (nm.length + 3) ∧
    (s.data.drop s.pos).take (nm.length + 3) = tagCloseBytes nm := by
  cases hb0 : s.data[s.pos]? with
  | none =>
    have hrb : s.readByte = (none, s) := by
      unfold RStream.readByte
      rw [hb0]
    unfold ReadFormatTag at h
    rw [hrb] at h
    simp at h
  | some b0 =>
    have hrb : s.readByte = (some b0, ⟨s.data, s.pos + 1⟩) := by
      unfold RStream.readByte
      rw [hb0]
    unfold ReadFormatTag at h
    rw [hrb] at h
    by_cases hb60 : b0 = 60
    · subst hb60
      dsimp only at h
      cases hb1 : s.data[s.pos + 1]? with
      | none =>
        have hrb1 : RStream.readByte ⟨s.data, s.pos + 1⟩ =
            (none, ⟨s.data, s.pos + 1⟩) := by
          unfold RStream.readByte
          rw [hb1]
        rw [hrb1] at h
        simp at h
      | some b1 =>
        have hrb1 : RStream.readByte ⟨s.data, s.pos + 1⟩ =
            (some b1, ⟨s.data, s.pos + 2⟩) := by
          unfold RStream.readByte
          rw [hb1]
        rw [hrb1] at h
        by_cases hb47 : b1 = 47
        · subst hb47
          simp only [] at h
          cases htc : readTagChars (s.data.drop (s.pos + 2)) with
          | none =>
            simp [htc] at h
          | some r =>
            obtain ⟨cs, k⟩ := r
            simp [htc] at h
            obtain ⟨h1, h2⟩ := h
            obtain ⟨hk, htake⟩ := readTagChars_spec _ cs k htc
            subst h1
            refine ⟨by rw [← h2], ?_, ?_⟩
            · rw [← h2]
              dsimp only
              omega
            · have hc0 : s.data.drop s.pos =
                  60 :: s.data.drop (s.pos + 1) :=
                drop_eq_cons_of_getElem? s.data s.pos 60 hb0
              have hc1 : s.data.drop (s.pos + 1) =
                  47 :: s.data.drop (s.pos + 2) :=
                drop_eq_cons_of_getElem? s.data (s.pos + 1) 47 hb1
              rw [hc0, hc1]
              have hk3 : cs.length + 3 = k + 2 := by omega
              rw [hk3]
              simp [List.take_succ_cons, htake, tagCloseBytes]
        · have hbne : ¬ (b1 = 47 ∧ True) := by simp [hb47]
          simp [hb47] at h
    · simp [hb60] at h

/-- Inverse characterization of a successful closing-tag assertion. -/
theorem assertFormatTag_close_true (name : List Nat) (s t : RStream)
    (h : AssertFormatTag name false s = (true, t)) :
    t.data = s.data ∧ t.pos = s.pos + (name.length + 3) ∧
    (s.data.drop s.pos).take (name.length + 3) = tagCloseBytes name := by
  unfold AssertFormatTag at h
  cases hr : ReadFormatTag false s with
  | mk nm? s1 =>
    rw [hr] at h
    cases nm? with
    | none => simp at h
    | some nm =>
      simp only [Prod.mk.injEq] at h
      obtain ⟨h1, h2⟩ := h
      have hnm : nm = name := by simpa using h1
      subst hnm
      subst h2
      exact readFormatTag_close_some s nm s1 hr

/-- C5 (counterexample to the claim as stated): a stream holding exactly
`<Components>` and nothing else reaches end-of-stream without the closing
tag, yet `ReadAll` yields `ComponentUnserialization` (wrapping the
component opening-tag failure), not `ComponentListClosingTagMissing`. -/
theorem c5_truncated_error_cex :
    ReadAll [] 0 ⟨tagOpenBytes ComponentListTag, 0⟩ =
      .error (.componentUnserialization .componentOpeningTagFormat) ∧
    (Except.error (SvgError.componentUnserialization
        SvgError.componentOpeningTagFormat) :
      Except SvgError RStream) ≠
      .error .componentListClosingTagMissing := by
  refine ⟨rfl, ?_⟩
  intro hcontra
  simp at hcontra

/-- The loop of `ReadAll` succeeds only by consuming a closing
`</Components>` tag: on success the last 13 consumed bytes are exactly
that tag. -/
theorem readAllLoop_ok_closing (table : List RHandler) (mask : Nat) :
    ∀ (fuel : Nat) (s s' : RStream),
    ReadAllLoop table mask fuel s = .ok s' →
    13 ≤ s'.pos ∧
    (s'.data.drop (s'.pos - 13)).take 13 = tagCloseBytes ComponentListTag := by
  intro fuel
  induction fuel with
  | zero =>
    intro s s' h
    simp [ReadAllLoop] at h
  | succ k ih =>
    intro s s' h
    unfold ReadAllLoop at h
    split at h
    next s1 heq =>
      obtain rfl : s1 = s' := by simpa using h
      obtain ⟨hdata, hpos, htake⟩ :=
        assertFormatTag_close_true ComponentListTag s s1 heq
      have hlen : (ComponentListTag).length + 3 = 13 := by decide
      rw [hlen] at hpos htake
      refine ⟨by omega, ?_⟩
      rw [hdata]
      have hsub : s1.pos - 13 = s.pos := by omega
      rw [hsub]
      exact htake
    next heq =>
      split at h
      · exact absurd h (by simp)
      next s2 hcomp =>
        split at h
        · exact absurd h (by simp)
        · exact ih s2 s' h

/-- C5 (amended): `ReadAll` rejects a stream that does not begin with the
`<Components>` tag with `ComponentListOpeningTagFormat`; it returns
success only by consuming the closing `</Components>` tag — on success the
13 bytes before the final position are exactly that tag, so a truncated
stream is never accepted; and end-of-stream reached cleanly between
component records (after a successfully read component, with no closing
tag at the current position) yields `ComponentListClosingTagMissing`.
(A stream truncated inside a record instead fails with a
`ComponentUnserialization`-wrapped error, per the counterexample.) -/
theorem c5_readall_framing (table : List RHandler) (mask : Nat)
    (s : RStream) :
    ((AssertFormatTag ComponentListTag true s).1 = false →
      ReadAll table mask s = .error .componentListOpeningTagFormat) ∧
    (∀ s', ReadAll table mask s = .ok s' →
      13 ≤ s'.pos ∧
      (s'.data.drop (s'.pos - 13)).take 13 = tagCloseBytes ComponentListTag) ∧
    (∀ s1 s2, AssertFormatTag ComponentListTag true s = (true, s1) →
      (AssertFormatTag ComponentListTag false s1).1 = false →
      ReadComponent table mask ⟨s1.data, s1.pos⟩ = .ok s2 →
      s2.eos = true →
      s1.pos ≤ s1.data.length →
      ReadAll table mask s = .error .componentListClosingTagMissing) := by
  refine ⟨?_, ?_, ?_⟩
  · intro hfail
    unfold ReadAll
    cases hA : AssertFormatTag ComponentListTag true s with
    | mk b s1 =>
      rw [hA] at hfail
      dsimp only at hfail
      subst hfail
      rfl
  · intro s' h
    unfold ReadAll at h
    split at h
    · exact absurd h (by simp)
    next s1 heq => exact readAllLoop_ok_closing table mask _ s1 s' h
  · intro s1 s2 hopen hclose hcomp heos hle
    unfold ReadAll
    rw [hopen]
    dsimp only
    obtain ⟨k, hk⟩ : ∃ k, s1.data.length + 1 - s1.pos = k + 1 :=
      ⟨s1.data.length - s1.pos, by omega⟩
    rw [hk]
    unfold ReadAllLoop
    cases hA : AssertFormatTag ComponentListTag false s1 with
    | mk b s1' =>
      rw [hA] at hclose
      dsimp only at hclose
      subst hclose
      dsimp only
      rw [hcomp]
      dsimp only
      rw [heos]
      simp

/-- C5 witness handler table: one handler named "B", selection bit 1, no
deserializer. -/
def c5Table : List RHandler := [⟨[66], 0, 0, 1, none⟩]

/-- C5 witness fixture: a `<Components>` envelope holding one complete
component `<B>` (version 0, empty payload) and then ending without the
closing `</Components>` tag. -/
def c5EosFixture : List Nat :=
  tagOpenBytes ComponentListTag ++
    (tagOpenBytes [66] ++ int32Bytes 0 ++ int64Bytes 0 ++ tagCloseBytes [66])

/-- Witness for the amended C5: an envelope with no components succeeds and
ends on the closing tag; a stream starting with garbage fails with the
opening-tag error; an envelope ending cleanly after one complete component
but without the closing tag fails with `ComponentListClosingTagMissing`. -/
theorem c5_readall_framing_witness :
    (13 ≤ (25 : Nat) ∧
      (((tagOpenBytes ComponentListTag ++
          tagCloseBytes ComponentListTag).drop (25 - 13)).take 13 =
        tagCloseBytes ComponentListTag)) ∧
    ReadAll [] 0 ⟨[0, 1, 2], 0⟩ = .error .componentListOpeningTagFormat ∧
    ReadAll c5Table 1 ⟨c5EosFixture, 0⟩ =
      .error .componentListClosingTagMissing := by
  refine ⟨?_, ?_, ?_⟩
  · have h := (c5_readall_framing [] 0
      ⟨tagOpenBytes ComponentListTag ++ tagCloseBytes ComponentListTag,
       0⟩).2.1
      ⟨tagOpenBytes ComponentListTag ++ tagCloseBytes ComponentListTag, 25⟩
      (by rfl)
    exact h
  · exact (c5_readall_framing [] 0 ⟨[0, 1, 2], 0⟩).1 (by decide)
  · exact (c5_readall_framing c5Table 1 ⟨c5EosFixture, 0⟩).2.2
      ⟨c5EosFixture, 12⟩ ⟨c5EosFixture, 31⟩ (by rfl) (by rfl) (by rfl)
      (by decide) (by decide)

/-- A signed 64-bit value in range survives the encode/decode cycle. -/
theorem toSigned_leValue_int64Bytes (v : Int) (h1 : -(2 ^ 63) ≤ v)
    (h2 : v < 2 ^ 63) : toSigned 64 (leValue (int64Bytes v)) = v := by
  unfold int64Bytes
  rw [leValue_leBytes]
  have hm0 : 0 ≤ v % 2 ^ 64 := Int.emod_nonneg v (by norm_num)
  have hm1 : v % 2 ^ 64 < 2 ^ 64 := Int.emod_lt_of_pos v (by norm_num)
  have hv : v % 2 ^ 64 = v ∨ v % 2 ^ 64 = v + 2 ^ 64 := by omega
  have h256 : (256 : Nat) ^ 8 = 2 ^ 64 := by norm_num
  rw [h256]
  have htn : ((v % 2 ^ 64).toNat : Int) = v % 2 ^ 64 := Int.toNat_of_nonneg hm0
  have hlt : (v % 2 ^ 64).toNat < 2 ^ 64 := by omega
  rw [Nat.mod_eq_of_lt hlt]
  unfold toSigned
  split <;> rename_i hc <;> omega

/-- Reading a signed int64 at a position whose suffix starts with its
encoding. -/
theorem readInt64_at (data : List Nat) (p : Nat) (v : Int) (rest : List Nat)
    (hd : data.drop p = int64Bytes v ++ rest)
    (h1 : -(2 ^ 63) ≤ v) (h2 : v < 2 ^ 63) :
    RStream.readInt64 ⟨data, p⟩ = (v, ⟨data, p + 8⟩) := by
  have hlen : data.length - p = 8 + rest.length := by
    have := congrArg List.length hd
    simpa [int64Bytes_length] using this
  have hple : p + 8 ≤ data.length := by
    rcases le_or_lt p data.length with hle | hlt
    · omega
    · rw [List.drop_eq_nil_of_le (by omega)] at hd
      simp [← List.length_eq_zero, int64Bytes_length] at hd
  have htake : (data.drop p).take 8 = int64Bytes v := by
    rw [hd, ← int64Bytes_length v]
    exact List.take_left _ _
  unfold RStream.readInt64 RStream.readRaw
  simp only [htake, Nat.min_eq_left hple]
  rw [toSigned_leValue_int64Bytes v h1 h2]

/-- Parsing the component header of a well-formed record reduces
`ReadComponent` to the dispatch stage, with the data offset right after
the header. -/
theorem readComponent_header (table : List RHandler) (mask : Nat)
    (name : List Nat) (hn : 62 ∉ name) (ver size : Int) (rest : List Nat)
    (hver1 : -(2 ^ 31) ≤ ver) (hver2 : ver < 2 ^ 31)
    (hsz1 : -(2 ^ 63) ≤ size) (hsz2 : size < 2 ^ 63) :
    ReadComponent table mask
      ⟨tagOpenBytes name ++ int32Bytes ver ++ int64Bytes size ++ rest, 0⟩ =
    ReadComponentDispatch table mask name ver size
      ⟨tagOpenBytes name ++ int32Bytes ver ++ int64Bytes size ++ rest,
       name.length + 14⟩ (name.length + 14) := by
  have hd0 : (tagOpenBytes name ++ int32Bytes ver ++ int64Bytes size ++
      rest).drop 0 = tagOpenBytes name ++
      (int32Bytes ver ++ (int64Bytes size ++ rest)) := by
    simp [List.append_assoc]
  have htag := readFormatTag_open_at name hn _ _ 0 hd0
  have hd1 : (tagOpenBytes name ++ int32Bytes ver ++ int64Bytes size ++
      rest).drop (0 + (name.length + 2)) =
      int32Bytes ver ++ (int64Bytes size ++ rest) := by
    have h1 := drop_add_of_prefix _ (tagOpenBytes name)
      (int32Bytes ver ++ (int64Bytes size ++ rest)) 0 hd0
    have h2 : (tagOpenBytes name).length = name.length + 2 := by
      simp [tagOpenBytes]
    rw [h2] at h1
    simpa using h1
  have hi32 := readInt32_at _ (0 + (name.length + 2)) ver _ hd1 hver1 hver2
  have hd2 : (tagOpenBytes name ++ int32Bytes ver ++ int64Bytes size ++
      rest).drop (0 + (name.length + 2) + 4) = int64Bytes size ++ rest := by
    have h1 := drop_add_of_prefix _ (int32Bytes ver)
      (int64Bytes size ++ rest) _ hd1
    rwa [int32Bytes_length] at h1
  have hi64 := readInt64_at _ (0 + (name.length + 2) + 4) size _ hd2 hsz1 hsz2
  unfold ReadComponent
  rw [htag]
  dsimp only
  rw [hi32]
  dsimp only
  rw [hi64]
  dsimp only
  have harith : 0 + (name.length + 2) + 4 + 8 = name.length + 14 := by omega
  rw [harith]

/-- A successful dispatch implies the framing equality held: the final
position is the data offset plus the declared size plus the closing tag. -/
theorem readComponentDispatch_ok_pos (table : List RHandler) (mask : Nat)
    (name : List Nat) (ver size : Int) (s3 : RStream) (dataOffset : Nat)
    (s' : RStream)
    (h : ReadComponentDispatch table mask name ver size s3 dataOffset =
      .ok s') :
    (s'.pos : Int) = (dataOffset : Int) + size + ((name.length + 3 : Nat) :
      Int) := by
  unfold ReadComponentDispatch at h
  dsimp only at h
  split at h
  · exact absurd h (by simp)
  · split at h
    · exact absurd h (by simp)
    next s4 hAP =>
      split at h
      · exact absurd h (by simp)
      next hsz =>
        split at h
        next s5 hassert =>
          obtain rfl : s5 = s' := by simpa using h
          obtain ⟨-, hpos, -⟩ :=
            assertFormatTag_close_true name s4 s5 hassert
          have hq : (s4.pos : Int) - (dataOffset : Int) = size := by
            by_contra hne
            exact hsz hne
          rw [hpos]
          push_cast
          omega
        next hassert => exact absurd h (by simp)

/-- A chosen handler whose unserializer succeeds but lands away from the
declared size makes the dispatch fail with `ComponentSizeMismatch`. -/
theorem readComponentDispatch_size_mismatch (table : List RHandler)
    (mask : Nat) (name : List Nat) (ver size : Int) (s3 : RStream)
    (dataOffset : Nat) (h : RHandler)
    (uns : Int → Int → RStream → Except SvgError Nat) (newPos : Nat)
    (hfind : (handlersFor table name).find?
      (fun hh => hh.selection &&& mask != 0) = some h)
    (huns : h.unserialize = some uns)
    (hver : ¬(ver > h.version ∨ ver < h.lowestVersion))
    (hrun : uns ver size s3 = .ok newPos)
    (hle : newPos ≤ s3.data.length)
    (hne : (newPos : Int) - (dataOffset : Int) ≠ size) :
    ReadComponentDispatch table mask name ver size s3 dataOffset =
      .error .componentSizeMismatch := by
  have hnonempty : ¬(handlersFor table name).isEmpty = true := by
    intro he
    rw [List.isEmpty_iff] at he
    rw [he] at hfind
    simp at hfind
  unfold ReadComponentDispatch
  simp only [if_neg hnonempty, hfind, huns, if_neg hver, hrun,
    Nat.min_eq_left hle, if_pos hne]

/-- An unknown component name fails with `UnsupportedComponent`. -/
theorem readComponentDispatch_unknown (table : List RHandler) (mask : Nat)
    (name : List Nat) (ver size : Int) (s3 : RStream) (dataOffset : Nat)
    (hempty : handlersFor table name = []) :
    ReadComponentDispatch table mask name ver size s3 dataOffset =
      .error .unsupportedComponent := by
  unfold ReadComponentDispatch
  rw [if_pos (by rw [hempty]; rfl)]

/-- A chosen handler with an unserializer rejects an out-of-range version
with `UnsupportedComponentVersion` before touching the payload. -/
theorem readComponentDispatch_bad_version (table : List RHandler)
    (mask : Nat) (name : List Nat) (ver size : Int) (s3 : RStream)
    (dataOffset : Nat) (h : RHandler)
    (uns : Int → Int → RStream → Except SvgError Nat)
    (hfind : (handlersFor table name).find?
      (fun hh => hh.selection &&& mask != 0) = some h)
    (huns : h.unserialize = some uns)
    (hver : ver > h.version ∨ ver < h.lowestVersion) :
    ReadComponentDispatch table mask name ver size s3 dataOffset =
      .error .unsupportedComponentVersion := by
  have hnonempty : ¬(handlersFor table name).isEmpty = true := by
    intro he
    rw [List.isEmpty_iff] at he
    rw [he] at hfind
    simp at hfind
  unfold ReadComponentDispatch
  simp only [if_neg hnonempty, hfind, huns, if_pos hver]

/-- With no handler selected by the mask, or a selected handler without an
unserializer, the payload is skipped by seeking past the declared size;
the size framing then holds automatically, and the component is processed
as a success apart from the closing-tag check. -/
theorem readComponentDispatch_skip (table : List RHandler) (mask : Nat)
    (name : List Nat) (ver size : Int) (s3 : RStream)
    (hfind : (handlersFor table name).find?
        (fun hh => hh.selection &&& mask != 0) = none ∨
      ∃ h, (handlersFor table name).find?
        (fun hh => hh.selection &&& mask != 0) = some h ∧
        h.unserialize = none)
    (hsz : 0 ≤ size)
    (hbound : (s3.pos : Int) + size ≤ (s3.data.length : Int))
    (hne : ¬(handlersFor table name).isEmpty = true) :
    (∃ s5, ReadComponentDispatch table mask name ver size s3 s3.pos =
      .ok s5) ∨
    ReadComponentDispatch table mask name ver size s3 s3.pos =
      .error .componentClosingTagFormat := by
  have hseek : s3.seekRel size = ⟨s3.data, s3.pos + size.toNat⟩ := by
    unfold RStream.seekRel
    have h1 : ((s3.pos : Int) + size).toNat = s3.pos + size.toNat := by
      omega
    rw [h1]
    have h2 : s3.pos + size.toNat ≤ s3.data.length := by omega
    rw [Nat.min_eq_left h2]
  have hchk : ¬(((s3.pos + size.toNat : Nat) : Int) - (s3.pos : Int) ≠
      size) := by
    push_cast
    omega
  unfold ReadComponentDispatch
  rcases hfind with hf | ⟨h, hf, hu⟩
  · simp only [if_neg hne, hf, hseek, if_neg hchk]
    cases hA : AssertFormatTag name false ⟨s3.data, s3.pos + size.toNat⟩ with
    | mk ok5 s5 =>
      cases ok5 with
      | true => exact Or.inl ⟨s5, rfl⟩
      | false => exact Or.inr rfl
  · simp only [if_neg hne, hf, hu, hseek, if_neg hchk]
    cases hA : AssertFormatTag name false ⟨s3.data, s3.pos + size.toNat⟩ with
    | mk ok5 s5 =>
      cases ok5 with
      | true => exact Or.inl ⟨s5, rfl⟩
      | false => exact Or.inr rfl

/-- `List.find?` returns the first element satisfying the predicate. -/
theorem find?_first {α : Type} (p : α → Bool) (l : List α) (x : α)
    (h : l.find? p = some x) :
    ∃ pre post, l = pre ++ x :: post ∧ p x = true ∧
      ∀ y ∈ pre, p y = false := by
  induction l with
  | nil => simp at h
  | cons a rest ih =>
    rw [List.find?_cons] at h
    split at h
    · rename_i hpa
      obtain rfl : a = x := by simpa using h
      exact ⟨[], rest, rfl, hpa, by simp⟩
    · rename_i hpa
      obtain ⟨pre, post, hl, hpx, hpre⟩ := ih h
      refine ⟨a :: pre, post, by rw [hl]; simp, hpx, ?_⟩
      intro y hy
      rcases List.mem_cons.mp hy with rfl | hy2
      · simpa using hpa
      · exact hpre y hy2

/-- C6: for every well-formed component record, success of `ReadComponent`
implies the stream position after the payload equalled
`DataOffset + DataLength` exactly (the final position additionally covers
the closing tag `</Name>`, `name.length + 3` bytes); and a handler whose
deserializer lands at any other position makes `ReadComponent` fail with
`ComponentSizeMismatch`. -/
theorem c6_component_size_framing (table : List RHandler) (mask : Nat)
    (name : List Nat) (ver size : Int) (rest : List Nat)
    (hn : 62 ∉ name)
    (hver1 : -(2 ^ 31) ≤ ver) (hver2 : ver < 2 ^ 31)
    (hsz1 : -(2 ^ 63) ≤ size) (hsz2 : size < 2 ^ 63) :
    (∀ s', ReadComponent table mask
        ⟨tagOpenBytes name ++ int32Bytes ver ++ int64Bytes size ++ rest, 0⟩ =
        .ok s' →
      (s'.pos : Int) = ((name.length + 14 : Nat) : Int) + size +
        ((name.length + 3 : Nat) : Int)) ∧
    (∀ h uns newPos,
      (handlersFor table name).find?
        (fun hh => hh.selection &&& mask != 0) = some h →
      h.unserialize = some uns →
      ¬(ver > h.version ∨ ver < h.lowestVersion) →
      uns ver size ⟨tagOpenBytes name ++ int32Bytes ver ++
        int64Bytes size ++ rest, name.length + 14⟩ = .ok newPos →
      newPos ≤ (tagOpenBytes name ++ int32Bytes ver ++ int64Bytes size ++
        rest).length →
      (newPos : Int) - ((name.length + 14 : Nat) : Int) ≠ size →
      ReadComponent table mask
        ⟨tagOpenBytes name ++ int32Bytes ver ++ int64Bytes size ++ rest,
         0⟩ = .error .componentSizeMismatch) := by
  have hhdr := readComponent_header table mask name hn ver size rest
    hver1 hver2 hsz1 hsz2
  constructor
  · intro s' hok
    rw [hhdr] at hok
    exact readComponentDispatch_ok_pos table mask name ver size _ _ s' hok
  · intro h uns newPos hfind huns hver hrun hle hne
    rw [hhdr]
    exact readComponentDispatch_size_mismatch table mask name ver size _
      (name.length + 14) h uns newPos hfind huns hver hrun hle hne

/-- Byte fixture for the C6 witness: a component `<A>` with version 0 and
declared payload size 3, a 3-byte payload, then `</A>`. -/
def c6FixtureData : List Nat :=
  tagOpenBytes [65] ++ int32Bytes 0 ++ int64Bytes 3 ++
    ([9, 9, 9] ++ tagCloseBytes [65])

/-- C6 witness handler that consumes exactly the declared 3 bytes. -/
def c6HandlerGood : RHandler :=
  ⟨[65], 0, 0, 1, some (fun _ _ s => .ok (s.pos + 3))⟩

/-- C6 witness handler that consumes 2 bytes instead of the declared 3. -/
def c6HandlerBad : RHandler :=
  ⟨[65], 0, 0, 1, some (fun _ _ s => .ok (s.pos + 2))⟩

/-- Witness for C6: the exact-size handler succeeds and the final position
satisfies the framing equality; the short handler fails with
`ComponentSizeMismatch`. -/
theorem c6_component_size_framing_witness :
    (ReadComponent [c6HandlerGood] 1 ⟨c6FixtureData, 0⟩ =
        .ok ⟨c6FixtureData, 22⟩ ∧
      (((⟨c6FixtureData, 22⟩ : RStream).pos : Int) =
        ((15 : Nat) : Int) + 3 + ((4 : Nat) : Int))) ∧
    ReadComponent [c6HandlerBad] 1 ⟨c6FixtureData, 0⟩ =
      .error .componentSizeMismatch := by
  refine ⟨⟨rfl, ?_⟩, ?_⟩
  · exact (c6_component_size_framing [c6HandlerGood] 1 [65] 0 3
      ([9, 9, 9] ++ tagCloseBytes [65]) (by decide) (by norm_num)
      (by norm_num) (by norm_num) (by norm_num)).1
      ⟨c6FixtureData, 22⟩ (by rfl)
  · exact (c6_component_size_framing [c6HandlerBad] 1 [65] 0 3
      ([9, 9, 9] ++ tagCloseBytes [65]) (by decide) (by norm_num)
      (by norm_num) (by norm_num) (by norm_num)).2
      c6HandlerBad (fun _ _ s => .ok (s.pos + 2)) 17 (by rfl) (by rfl)
      (by decide) (by rfl) (by decide) (by decide)

/-- C7: for a well-formed component record, `ReadComponent`'s dispatch
behaves as: no handler with the encountered name means
`UnsupportedComponent`; the chosen handler is the first in
registration-table order whose selection bits intersect the mask; a chosen
handler with a deserializer rejects an out-of-range version with
`UnsupportedComponentVersion`; and with no mask-selected handler, or a
selected handler without a deserializer, the payload is skipped by seeking
past its declared length and the component is processed as a success apart
from the closing-tag check. -/
theorem c7_read_dispatch (table : List RHandler) (mask : Nat)
    (name : List Nat) (ver size : Int) (rest : List Nat)
    (hn : 62 ∉ name)
    (hver1 : -(2 ^ 31) ≤ ver) (hver2 : ver < 2 ^ 31)
    (hsz1 : -(2 ^ 63) ≤ size) (hsz2 : size < 2 ^ 63) :
    (handlersFor table name = [] →
      ReadComponent table mask
        ⟨tagOpenBytes name ++ int32Bytes ver ++ int64Bytes size ++ rest,
         0⟩ = .error .unsupportedComponent) ∧
    (∀ h, (handlersFor table name).find?
        (fun hh => hh.selection &&& mask != 0) = some h →
      ∃ pre post, handlersFor table name = pre ++ h :: post ∧
        h.selection &&& mask ≠ 0 ∧
        ∀ h' ∈ pre, h'.selection &&& mask = 0) ∧
    (∀ h uns, (handlersFor table name).find?
        (fun hh => hh.selection &&& mask != 0) = some h →
      h.unserialize = some uns →
      (ver > h.version ∨ ver < h.lowestVersion) →
      ReadComponent table mask
        ⟨tagOpenBytes name ++ int32Bytes ver ++ int64Bytes size ++ rest,
         0⟩ = .error .unsupportedComponentVersion) ∧
    (((handlersFor table name).find?
        (fun hh => hh.selection &&& mask != 0) = none ∨
      (∃ h, (handlersFor table name).find?
        (fun hh => hh.selection &&& mask != 0) = some h ∧
        h.unserialize = none)) →
      handlersFor table name ≠ [] →
      0 ≤ size →
      ((name.length + 14 : Nat) : Int) + size ≤
        ((tagOpenBytes name ++ int32Bytes ver ++ int64Bytes size ++
          rest).length : Int) →
      (∃ s5, ReadComponent table mask
        ⟨tagOpenBytes name ++ int32Bytes ver ++ int64Bytes size ++ rest,
         0⟩ = .ok s5) ∨
      ReadComponent table mask
        ⟨tagOpenBytes name ++ int32Bytes ver ++ int64Bytes size ++ rest,
         0⟩ = .error .componentClosingTagFormat) := by
  have hhdr := readComponent_header table mask name hn ver size rest
    hver1 hver2 hsz1 hsz2
  refine ⟨?_, ?_, ?_, ?_⟩
  · intro hempty
    rw [hhdr]
    exact readComponentDispatch_unknown table mask name ver size _ _ hempty
  · intro h hfind
    obtain ⟨pre, post, hl, hpx, hpre⟩ :=
      find?_first (fun hh => hh.selection &&& mask != 0) _ h hfind
    refine ⟨pre, post, hl, ?_, ?_⟩
    · simpa using hpx
    · intro h' hh'
      have := hpre h' hh'
      simpa using this
  · intro h uns hfind huns hver
    rw [hhdr]
    exact readComponentDispatch_bad_version table mask name ver size _ _
      h uns hfind huns hver
  · intro hfind hnonempty hsz hbound
    rw [hhdr]
    have hne : ¬(handlersFor table name).isEmpty = true := by
      intro he
      rw [List.isEmpty_iff] at he
      exact hnonempty he
    exact readComponentDispatch_skip table mask name ver size _ hfind hsz
      hbound hne

/-- C7 witness fixture: one handler named "B" with selection bit 2 and no
deserializer. -/
def c7Table : List RHandler := [⟨[66], 0, 0, 2, none⟩]

/-- Byte fixture for the C7 witness: a component `<A>` (no handler of that
name in `c7Table`). -/
def c7FixtureA : List Nat :=
  tagOpenBytes [65] ++ int32Bytes 0 ++ int64Bytes 0 ++ tagCloseBytes [65]

/-- Byte fixture for the C7 witness: a component `<B>` with a 2-byte
payload to be skipped. -/
def c7FixtureB : List Nat :=
  tagOpenBytes [66] ++ int32Bytes 0 ++ int64Bytes 2 ++
    ([7, 7] ++ tagCloseBytes [66])

/-- Witness for C7: the unknown name fails with `UnsupportedComponent`;
the known name with a deserializer-less handler is skipped and processed
successfully. -/
theorem c7_read_dispatch_witness :
    ReadComponent c7Table 2 ⟨c7FixtureA, 0⟩ =
      .error .unsupportedComponent ∧
    ((∃ s5, ReadComponent c7Table 2 ⟨c7FixtureB, 0⟩ = .ok s5) ∨
      ReadComponent c7Table 2 ⟨c7FixtureB, 0⟩ =
        .error .componentClosingTagFormat) := by
  constructor
  · exact (c7_read_dispatch c7Table 2 [65] 0 0 (tagCloseBytes [65])
      (by decide) (by norm_num) (by norm_num) (by norm_num)
      (by norm_num)).1 (by rfl)
  · exact (c7_read_dispatch c7Table 2 [66] 0 2 ([7, 7] ++ tagCloseBytes [66])
      (by decide) (by norm_num) (by norm_num) (by norm_num)
      (by norm_num)).2.2.2
      (Or.inr ⟨⟨[66], 0, 0, 2, none⟩, by rfl, rfl⟩)
      (by simp [handlersFor, c7Table]) (by norm_num) (by decide)

end SavegameComponents

end AGS
